import Mathlib

/-!
# Contact impulse resolution of the MiniCore physics engine

A shallow embedding of `src/game/MiniCore/Core/Physics/mcimpulsegenerator.cc`
(class `MCImpulseGeneratorImpl`) and the properties of its three member functions

* `getDeepestInterpenetration`  (source lines 39-53),
* `processContact`               (source lines 55-95),
* `generateImpulsesFromDeepestContacts` (source lines 97-129).

Arithmetic.  `MCFloat` is single precision in the source.  Here a finite `MCFloat` is an
exact rational number, so rounding and overflow are idealised away; the one non-finite
behaviour that the source can reach from finite data, a division whose denominator is
zero (IEEE gives an infinity or a NaN, and every sum, difference, product or quotient by a
finite number that consumes one is non-finite again), is kept as the value
`MCFloat.nonfinite`.  Body parameters (masses, inertias, restitution, radius, depth) are
finite rationals; locations, velocities and angular velocities are `MCFloat`s.

Reach of the idealisation.  Single precision rounds every operation and overflows.  The
results on the selection of the deepest contact, on the guards (stationary objects, zero
denominators), on the contact hashes, on the linear balance that never reaches the
impulse and on the order of the two runs on a mirrored pair rest on the control flow and
on sign identities, which rounding respects.  The statements marked "Exact arithmetic
only" (conservation of the total momentum, the comparison of the lengths of the two
positional corrections, the value of the angular impulse and its vanishing for a parallel
arm, the separation by exactly the depth) are identities of the formulas over the
rationals; the values computed in single precision satisfy them up to rounding only, and
they are not properties of the computed values.

Objects.  The source passes `MCObject &` references.  An object is named here by an
`ObjId` and a `World` maps every name to the state of that object, so that aliasing
(`pa` and `pb` naming the same object) behaves as in the source.
-/

namespace MiniCore

/-! ## Scalars -/

/-- A value of type `MCFloat`: a finite number, or the non-finite result (infinity or NaN)
of a computation that divided by zero. -/
inductive MCFloat where
  | fin (q : ℚ)
  | nonfinite
deriving DecidableEq

namespace MCFloat

/-- Sum `a + b`. -/
def add : MCFloat → MCFloat → MCFloat
  | fin a, fin b => fin (a + b)
  | _, _ => nonfinite

/-- Difference `a - b`. -/
def sub : MCFloat → MCFloat → MCFloat
  | fin a, fin b => fin (a - b)
  | _, _ => nonfinite

/-- Product `a * b`. -/
def mul : MCFloat → MCFloat → MCFloat
  | fin a, fin b => fin (a * b)
  | _, _ => nonfinite

/-- Unary minus `-a`. -/
def neg : MCFloat → MCFloat
  | fin a => fin (-a)
  | nonfinite => nonfinite

/-- Quotient `a / b`; a zero denominator gives a non-finite value. -/
def div : MCFloat → MCFloat → MCFloat
  | fin a, fin b => if b = 0 then nonfinite else fin (a / b)
  | _, _ => nonfinite

/-- Comparison `a < b` of two finite values (the comparison of a non-finite value is not
tracked and reads as false). -/
def blt : MCFloat → MCFloat → Bool
  | fin a, fin b => decide (a < b)
  | _, _ => false

instance : Add MCFloat := ⟨add⟩
instance : Sub MCFloat := ⟨sub⟩
instance : Mul MCFloat := ⟨mul⟩
instance : Neg MCFloat := ⟨neg⟩
instance : Div MCFloat := ⟨div⟩

end MCFloat

/-! ## Vectors (`mcvector3d.hh`, `mcvector2d.hh`) -/

/-- Three-dimensional vector `MCVector3dF` with components `i`, `j`, `k`. -/
@[ext]
structure MCVector3dF where
  i : MCFloat
  j : MCFloat
  k : MCFloat
deriving DecidableEq

/-- Two-dimensional vector `MCVector2dF` with components `i`, `j`. -/
structure MCVector2dF where
  i : MCFloat
  j : MCFloat
deriving DecidableEq

namespace MCVector3dF

/-- Vector with finite components. -/
def ofRat (x y z : ℚ) : MCVector3dF := ⟨MCFloat.fin x, MCFloat.fin y, MCFloat.fin z⟩

/-- Vector whose three components are non-finite. -/
def nonfinite : MCVector3dF := ⟨MCFloat.nonfinite, MCFloat.nonfinite, MCFloat.nonfinite⟩

/-- Modelled from the spec: componentwise vector sum (`operator +`), a vector/scalar math
primitive the spec assumes correct. -/
def add (a b : MCVector3dF) : MCVector3dF := ⟨a.i + b.i, a.j + b.j, a.k + b.k⟩

/-- Modelled from the spec: componentwise vector difference (`operator -`). -/
def sub (a b : MCVector3dF) : MCVector3dF := ⟨a.i - b.i, a.j - b.j, a.k - b.k⟩

/-- Modelled from the spec: componentwise negation (unary `operator -`). -/
def neg (a : MCVector3dF) : MCVector3dF := ⟨-a.i, -a.j, -a.k⟩

/-- Modelled from the spec: product of a vector and a scalar (`operator * (T)`). -/
def smul (a : MCVector3dF) (n : MCFloat) : MCVector3dF := ⟨a.i * n, a.j * n, a.k * n⟩

/-- Modelled from the spec: quotient of a vector by a scalar (`operator / (T)`). -/
def sdiv (a : MCVector3dF) (n : MCFloat) : MCVector3dF := ⟨a.i / n, a.j / n, a.k / n⟩

/-- Modelled from the spec: dot product (`dot`). -/
def dot (a b : MCVector3dF) : MCFloat := a.i * b.i + a.j * b.j + a.k * b.k

/-- Modelled from the spec: cross product (`operator %`), right-handed. -/
def cross (a b : MCVector3dF) : MCVector3dF :=
  ⟨a.j * b.k - a.k * b.j, a.k * b.i - a.i * b.k, a.i * b.j - a.j * b.i⟩

/-- Conversion `MCVector2dF(const MCVector3dF &)`: the `k` component is dropped. -/
def toVector2d (a : MCVector3dF) : MCVector2dF := ⟨a.i, a.j⟩

instance : Add MCVector3dF := ⟨add⟩
instance : Sub MCVector3dF := ⟨sub⟩
instance : Neg MCVector3dF := ⟨neg⟩
instance : HMul MCVector3dF MCFloat MCVector3dF := ⟨smul⟩
instance : HDiv MCVector3dF MCFloat MCVector3dF := ⟨sdiv⟩

end MCVector3dF

/-- Conversion `MCVector3dF(const MCVector2dF &)`: the `k` component is zero. -/
def MCVector2dF.toVector3d (a : MCVector2dF) : MCVector3dF := ⟨a.i, a.j, MCFloat.fin 0⟩

/-! ## Contacts, objects and the world (`mccontact.hh`, `mcobject.hh`, `mcshape.hh`) -/

/-- Identity of an object (the address `MCObject *` of the source). -/
abbrev ObjId := Nat

/-- The part of `MCShape` that is read: its bounding radius. -/
structure MCShape where
  radius : ℚ
deriving DecidableEq

/-- A contact record: the colliding object, the contact point, the contact normal and the
interpenetration depth. -/
structure MCContact where
  object : ObjId
  contactPoint : MCVector3dF
  contactNormal : MCVector3dF
  interpenetrationDepth : ℚ
deriving DecidableEq

/-- The state of an `MCObject` that the impulse generator reads or writes.  `contacts` is
the contact hash `object.contacts()`: one bucket per colliding object, in iteration
order. -/
structure MCObject where
  mass : ℚ
  invMass : ℚ
  momentOfInertia : ℚ
  invMomentOfInertia : ℚ
  restitution : ℚ
  stationary : Bool
  shape : Option MCShape
  location : MCVector3dF
  velocity : MCVector3dF
  angularVelocity : MCFloat
  contacts : List (ObjId × List MCContact)
deriving DecidableEq

namespace MCObject

/-- Modelled from the spec: the body of `MCObject::displace` is missing; the spec has
the scaled displacement added to the location of the object. -/
def displace (o : MCObject) (displacement : MCVector3dF) : MCObject :=
  { o with location := o.location + displacement }

/-- Modelled from the spec: the body of `MCObject::addLinearImpulse` is missing; the
spec has the impulse applied to (added to) the velocity of the object. -/
def addLinearImpulse (o : MCObject) (impulse : MCVector3dF) : MCObject :=
  { o with velocity := o.velocity + impulse }

/-- Modelled from the spec: the body of `MCObject::addRotationalImpulse` is missing; the
spec has the scalar applied as an angular-velocity impulse to the object. -/
def addRotationalImpulse (o : MCObject) (impulse : MCFloat) : MCObject :=
  { o with angularVelocity := o.angularVelocity + impulse }

/-- Modelled from the spec: the body of `MCObject::deleteContacts()` is missing; the
spec has it clear all contact buckets of the object. -/
def deleteContacts (o : MCObject) : MCObject :=
  { o with contacts := [] }

/-- Modelled from the spec: the body of `MCObject::deleteContacts(MCObject &)` is
missing; the spec has it remove any contact bucket held against the given object. -/
def deleteContactsWith (o : MCObject) (other : ObjId) : MCObject :=
  { o with contacts := o.contacts.filter fun bucket => bucket.1 != other }

end MCObject

/-- All objects of the scene, by identity. -/
abbrev World := ObjId → MCObject

/-! ## The impulse generator -/

/-- Loop body of `getDeepestInterpenetration` (source lines 46-50) on the pair
`(maxDepth, bestContact)`. -/
def deepestStep (st : ℚ × Option MCContact) (contact : MCContact) : ℚ × Option MCContact :=
  if contact.interpenetrationDepth > st.1 then
    (contact.interpenetrationDepth, some contact)
  else
    st

/-- `MCImpulseGeneratorImpl::getDeepestInterpenetration` (source lines 39-53); `none` is
the null pointer. -/
def getDeepestInterpenetration (contacts : List MCContact) : Option MCContact :=
  (contacts.foldl deepestStep (0, none)).2

/-- `MCImpulseGeneratorImpl::processContact` (source lines 55-95).  `lengthFast` stands for
`MCVector3dF::lengthFast`, which is declared in `mcvector3d.hh`.  The source declares
`linearBalance` a second time inside the block of `if (pa.shape())`; that inner variable is
`linearBalanceInner` here, it goes out of scope at the end of the block, and the call of
`addLinearImpulse` reads the outer variable. -/
def processContact (lengthFast : MCVector3dF → MCFloat) (w : World) (pa pb : ObjId)
    (contact : MCContact) (displacement linearImpulse : MCVector3dF) (restitution : ℚ) :
    World :=
  let invMassA := (w pa).invMass
  let invMassB := (w pb).invMass
  let invInerA := (w pa).invMomentOfInertia
  let invInerB := (w pb).invMomentOfInertia
  if !(w pa).stationary then
    let contactPoint := contact.contactPoint
    let arm := contactPoint - (w pa).location
    -- Linear component
    let massScaling := MCFloat.fin invMassA / MCFloat.fin (invMassA + invMassB)
    let a1 := (w pa).displace (displacement * massScaling)
    let linearBalance := MCFloat.fin 1
    let _linearBalanceInner : MCFloat :=
      match a1.shape with
      | some shape =>
        let d := shape.radius * 2
        let linearBalanceInner := MCFloat.fin 1 - lengthFast arm / MCFloat.fin d
        if MCFloat.blt linearBalanceInner (MCFloat.fin 0) then MCFloat.fin 0
        else linearBalanceInner
      | none => linearBalance
    let effRestitution := 1 + restitution
    let a2 := a1.addLinearImpulse
      (linearImpulse * MCFloat.fin effRestitution * massScaling * linearBalance)
    -- Angular component
    let rotationalImpulse :=
      MCVector3dF.cross (linearImpulse * MCFloat.fin a2.mass) arm
        / MCFloat.fin a2.momentOfInertia
    let magnitude := rotationalImpulse.k
    let inerScaling := MCFloat.fin invInerA / MCFloat.fin (invInerA + invInerB)
    let a3 := a2.addRotationalImpulse (-magnitude * MCFloat.fin effRestitution * inerScaling)
    Function.update w pa a3
  else
    w

/-- The block of `if (contact)` in `generateImpulsesFromDeepestContacts` (source lines
105-124): the contact `contact` held by `object` is discharged on both objects and the
bucket that the other object holds against `object` is removed. -/
def dischargeContact (lengthFast : MCVector3dF → MCFloat) (w : World) (object : ObjId)
    (contact : MCContact) : World :=
  let pa := object
  let pb := contact.object
  let restitution := min (w pa).restitution (w pb).restitution
  let velocityDelta : MCVector2dF := ((w pb).velocity - (w pa).velocity).toVector2d
  let linearImpulse : MCVector3dF :=
    contact.contactNormal * contact.contactNormal.dot velocityDelta.toVector3d
  let displacement : MCVector3dF :=
    contact.contactNormal * MCFloat.fin contact.interpenetrationDepth
  let w1 := processContact lengthFast w pa pb contact displacement linearImpulse restitution
  let w2 := processContact lengthFast w1 pb pa contact (-displacement) (-linearImpulse)
    restitution
  Function.update w2 pb ((w2 pb).deleteContactsWith pa)

/-- One iteration of the loop of `generateImpulsesFromDeepestContacts` (source lines
102-125) on one bucket. -/
def resolveBucket (lengthFast : MCVector3dF → MCFloat) (object : ObjId) (w : World)
    (bucket : ObjId × List MCContact) : World :=
  match getDeepestInterpenetration bucket.2 with
  | some contact => dischargeContact lengthFast w object contact
  | none => w

/-- `MCImpulseGeneratorImpl::generateImpulsesFromDeepestContacts` (source lines 97-129),
the `resolve(object)` of the specification.  The loop runs over the buckets that `object`
holds when the function is entered: the loop body edits the contact hash of the other
object only, which is a different container whenever the other object is not `object`
itself (erasing from the container under iteration is undefined behaviour in the source
and is not modelled). -/
def generateImpulsesFromDeepestContacts (lengthFast : MCVector3dF → MCFloat) (w : World)
    (object : ObjId) : World :=
  let w1 := (w object).contacts.foldl (resolveBucket lengthFast object) w
  Function.update w1 object (w1 object).deleteContacts


/-! ## Notions used in the statements -/

/-- The scalar attenuation of the linear impulse in the words of the specification:
`linearBalance = clamp(1 − |arm| / (2 * radius), 0, 1)`, for an arm of length `armLength`
and a shape of bounding radius `radius`. -/
def specLinearBalance (armLength radius : ℚ) : ℚ :=
  max 0 (min 1 (1 - armLength / (2 * radius)))

/-- Location, velocity and angular velocity of an object. -/
def MCObject.kinematics (o : MCObject) : MCVector3dF × MCVector3dF × MCFloat :=
  (o.location, o.velocity, o.angularVelocity)

/-- Squared Euclidean length of the vector `(x, y, z)`. -/
def lengthSquared (x y z : ℚ) : ℚ := x * x + y * y + z * z

/-- The mass scaling of source line 71 for finite inverse masses with a sum that is not
zero: `invMass(self) / (invMass(self) + invMass(other))`. -/
def massScaling (invMassSelf invMassOther : ℚ) : ℚ :=
  invMassSelf / (invMassSelf + invMassOther)

/-- The world with every contact hash cleared: the parameters, locations, velocities and
angular velocities of the objects. -/
def withoutContacts (w : World) : World := fun x => (w x).deleteContacts

/-- Two contacts mirror each other: the same contact point, the same depth and opposite
normals. -/
def MCContact.mirrors (c1 c2 : MCContact) : Prop :=
  c2.contactPoint = c1.contactPoint ∧
  c2.interpenetrationDepth = c1.interpenetrationDepth ∧
  c2.contactNormal = -c1.contactNormal

instance (c1 c2 : MCContact) : Decidable (c1.mirrors c2) := by
  unfold MCContact.mirrors
  infer_instance

/-! ## Concrete data for the evaluations -/

/-- A contact at the origin with normal `(1, 0, 0)` and the given depth against `other`. -/
def contactOfDepth (other : ObjId) (depth : ℚ) : MCContact :=
  ⟨other, MCVector3dF.ofRat 0 0 0, MCVector3dF.ofRat 1 0 0, depth⟩

/-- Body A of the end-to-end scenario of the specification: mass 10, inverse mass 0.1, not
stationary, restitution 0.5; it has a shape of radius 1, rests at the origin and holds the
given contact buckets. -/
def scenarioBodyA (contacts : List (ObjId × List MCContact)) : MCObject :=
  { mass := 10, invMass := 1/10, momentOfInertia := 5, invMomentOfInertia := 1/5,
    restitution := 1/2, stationary := false, shape := some ⟨1⟩,
    location := MCVector3dF.ofRat 0 0 0, velocity := MCVector3dF.ofRat 0 0 0,
    angularVelocity := MCFloat.fin 0, contacts := contacts }

/-- Body B of the end-to-end scenario: as body A, at `(9/5, 0, 0)` and moving with velocity
`(-2, 0, 0)`, so that `B.velocity - A.velocity = (-2, 0, 0)`. -/
def scenarioBodyB (contacts : List (ObjId × List MCContact)) : MCObject :=
  { mass := 10, invMass := 1/10, momentOfInertia := 5, invMomentOfInertia := 1/5,
    restitution := 1/2, stationary := false, shape := some ⟨1⟩,
    location := MCVector3dF.ofRat (9/5) 0 0, velocity := MCVector3dF.ofRat (-2) 0 0,
    angularVelocity := MCFloat.fin 0, contacts := contacts }

/-- The contact of the scenario as A records it against B (object 2): normal `(1, 0, 0)`,
depth 0.2, at the point `(1, 0, 0)` on the rim of A, one radius away from the centre of A. -/
def scenarioContact : MCContact :=
  ⟨2, MCVector3dF.ofRat 1 0 0, MCVector3dF.ofRat 1 0 0, 1/5⟩

/-- The scene of the scenario: object 1 is body A holding the single contact against
object 2, every other object is body B without contacts. -/
def scenarioWorld : World := fun x =>
  if x = 1 then scenarioBodyA [(2, [scenarioContact])] else scenarioBodyB []

/-- A body of infinite mass and inertia (inverse mass and inverse inertia zero) that is not
flagged stationary, at rest at the origin. -/
def immovableBody : MCObject :=
  { mass := 1000000, invMass := 0, momentOfInertia := 1000000, invMomentOfInertia := 0,
    restitution := 1/2, stationary := false, shape := none,
    location := MCVector3dF.ofRat 0 0 0, velocity := MCVector3dF.ofRat 0 0 0,
    angularVelocity := MCFloat.fin 0, contacts := [] }

/-- A scene in which every object is an `immovableBody`. -/
def immovableWorld : World := fun _ => immovableBody

/-- A stand-in for `MCVector3dF::lengthFast` in evaluations: the sum of the absolute values
of the components when they are finite. -/
def lengthStandIn (v : MCVector3dF) : MCFloat :=
  match v.i, v.j, v.k with
  | MCFloat.fin x, MCFloat.fin y, MCFloat.fin z => MCFloat.fin (|x| + |y| + |z|)
  | _, _, _ => MCFloat.nonfinite

/-- A stationary body (a wall): inverse mass and inverse inertia zero, at rest at the
origin, holding the given contact buckets. -/
def wallBody (contacts : List (ObjId × List MCContact)) : MCObject :=
  { mass := 1000000, invMass := 0, momentOfInertia := 1000000, invMomentOfInertia := 0,
    restitution := 1/2, stationary := true, shape := none,
    location := MCVector3dF.ofRat 0 0 0, velocity := MCVector3dF.ofRat 0 0 0,
    angularVelocity := MCFloat.fin 0, contacts := contacts }

/-- The contact that body B records against the wall (object 1): at the point `(1, 0, 0)`,
with the normal `(1, 0, 0)` pointing from the wall to B, depth 0.2. -/
def wallContact : MCContact :=
  ⟨1, MCVector3dF.ofRat 1 0 0, MCVector3dF.ofRat 1 0 0, 1/5⟩

/-- A scene with a wall: object 1 is the stationary `wallBody`, every other object is the
moving body B of the scenario holding `wallContact` against the wall. -/
def wallWorld : World := fun x =>
  if x = 1 then wallBody [(2, [⟨2, MCVector3dF.ofRat 1 0 0, MCVector3dF.ofRat (-1) 0 0, 1/5⟩])]
  else scenarioBodyB [(1, [wallContact])]

/-- A heavy body: mass 30, inverse mass 1/30, not stationary, restitution 0.5, at the
origin with velocity `(1, 0, 0)`, holding the given contact buckets. -/
def heavyBody (contacts : List (ObjId × List MCContact)) : MCObject :=
  { mass := 30, invMass := 1/30, momentOfInertia := 15, invMomentOfInertia := 1/15,
    restitution := 1/2, stationary := false, shape := some ⟨1⟩,
    location := MCVector3dF.ofRat 0 0 0, velocity := MCVector3dF.ofRat 1 0 0,
    angularVelocity := MCFloat.fin 0, contacts := contacts }

/-- A scene with a heavy and a light body: object 1 is the `heavyBody` holding
`scenarioContact` against object 2, every other object is the body B of the scenario
(mass 10) without contacts. -/
def heavyLightWorld : World := fun x =>
  if x = 1 then heavyBody [(2, [scenarioContact])] else scenarioBodyB []

/-- The contact that body B (object 2) records against body A (object 1), the mirror image
of `scenarioContact`: same point and depth, opposite normal. -/
def mirrorContact : MCContact :=
  ⟨1, MCVector3dF.ofRat 1 0 0, MCVector3dF.ofRat (-1) 0 0, 1/5⟩

/-- The scene of a pair in contact: object 1 is body A holding `scenarioContact` against
object 2, every other object is body B holding `mirrorContact` against object 1. -/
def pairWorld : World := fun x =>
  if x = 1 then scenarioBodyA [(2, [scenarioContact])]
  else scenarioBodyB [(1, [mirrorContact])]

/-- A contact that body B (object 2) records against body A (object 1) with the depth 1/2,
deeper than the contact that A records against B. -/
def deepContact : MCContact :=
  ⟨1, MCVector3dF.ofRat 1 0 0, MCVector3dF.ofRat (-1) 0 0, 1/2⟩

/-- The scene of a pair with contacts that do not mirror each other: object 1 is body A
holding `scenarioContact` (depth 1/5) against object 2, every other object is body B
holding `deepContact` (depth 1/2) against object 1. -/
def skewWorld : World := fun x =>
  if x = 1 then scenarioBodyA [(2, [scenarioContact])]
  else scenarioBodyB [(1, [deepContact])]

/-- A contact that body A (object 1) records against body B (object 2) off the axis of the
impulse: normal `(1, 0, 0)`, depth 0.2, at the point `(1, 1, 0)`. -/
def offAxisContact : MCContact :=
  ⟨2, MCVector3dF.ofRat 1 1 0, MCVector3dF.ofRat 1 0 0, 1/5⟩

/-! # Properties -/

/-! ## Selection of the deepest contact -/

/-- Invariant of the selection loop started from `(m, b)`: either no contact is deeper
than `m` and the pair is returned unchanged, or the pair holds the first contact of
maximal depth. -/
theorem foldl_deepestStep (contacts : List MCContact) (m : ℚ) (b : Option MCContact) :
    (contacts.foldl deepestStep (m, b) = (m, b) ∧
        ∀ c ∈ contacts, c.interpenetrationDepth ≤ m) ∨
    ∃ pre best post, contacts = pre ++ best :: post ∧
        contacts.foldl deepestStep (m, b) = (best.interpenetrationDepth, some best) ∧
        m < best.interpenetrationDepth ∧
        (∀ c ∈ pre, c.interpenetrationDepth < best.interpenetrationDepth) ∧
        ∀ c ∈ post, c.interpenetrationDepth ≤ best.interpenetrationDepth := by
  induction contacts generalizing m b with
  | nil => left; simp
  | cons c cs ih =>
    by_cases hc : c.interpenetrationDepth > m
    · right
      have hstep : deepestStep (m, b) c = (c.interpenetrationDepth, some c) := by
        simp [deepestStep, hc]
      rcases ih c.interpenetrationDepth (some c) with ⟨heq, hle⟩ | ⟨pre, best, post, hsplit, heq, hlt, hpre, hpost⟩
      · refine ⟨[], c, cs, rfl, ?_, hc, by simp, hle⟩
        simp only [List.foldl_cons, hstep, heq]
      · refine ⟨c :: pre, best, post, by simp [hsplit], ?_, lt_trans hc hlt, ?_, hpost⟩
        · simp only [List.foldl_cons, hstep, heq]
        · intro x hx
          rcases List.mem_cons.mp hx with rfl | hx
          · exact hlt
          · exact hpre x hx
    · have hstep : deepestStep (m, b) c = (m, b) := by
        simp [deepestStep, hc]
      have hcm : c.interpenetrationDepth ≤ m := not_lt.mp hc
      rcases ih m b with ⟨heq, hle⟩ | ⟨pre, best, post, hsplit, heq, hlt, hpre, hpost⟩
      · left
        refine ⟨by simp only [List.foldl_cons, hstep, heq], ?_⟩
        intro x hx
        rcases List.mem_cons.mp hx with rfl | hx
        · exact hcm
        · exact hle x hx
      · right
        refine ⟨c :: pre, best, post, by simp [hsplit], ?_, hlt, ?_, hpost⟩
        · simp only [List.foldl_cons, hstep, heq]
        · intro x hx
          rcases List.mem_cons.mp hx with rfl | hx
          · exact lt_of_le_of_lt hcm hlt
          · exact hpre x hx

/-- C1: `getDeepestInterpenetration` returns none exactly when no contact of the sequence
has a depth greater than zero (the empty sequence included); otherwise it returns the first
contact, in sequence order, whose depth is the maximum depth of the sequence: every earlier
contact is strictly shallower and no later contact is deeper. -/
theorem getDeepestInterpenetration_spec (contacts : List MCContact) :
    (getDeepestInterpenetration contacts = none ↔
        ∀ c ∈ contacts, ¬ 0 < c.interpenetrationDepth) ∧
    ((∃ c ∈ contacts, 0 < c.interpenetrationDepth) →
      ∃ pre best post, contacts = pre ++ best :: post ∧
        getDeepestInterpenetration contacts = some best ∧
        0 < best.interpenetrationDepth ∧
        (∀ c ∈ pre, c.interpenetrationDepth < best.interpenetrationDepth) ∧
        (∀ c ∈ post, c.interpenetrationDepth ≤ best.interpenetrationDepth) ∧
        ∀ c ∈ contacts, c.interpenetrationDepth ≤ best.interpenetrationDepth) := by
  unfold getDeepestInterpenetration
  rcases foldl_deepestStep contacts 0 none with
    ⟨heq, hle⟩ | ⟨pre, best, post, hsplit, heq, hlt, hpre, hpost⟩
  · refine ⟨?_, ?_⟩
    · rw [heq]
      simpa using hle
    · rintro ⟨c, hc, hpos⟩
      exact absurd (hle c hc) (not_le.mpr hpos)
  · refine ⟨?_, ?_⟩
    · rw [heq]
      constructor
      · intro h
        simp at h
      · intro h
        exact absurd hlt (h best (by simp [hsplit]))
    · intro _
      refine ⟨pre, best, post, hsplit, by rw [heq], hlt, hpre, hpost, ?_⟩
      intro c hc
      rw [hsplit] at hc
      rcases List.mem_append.mp hc with h | h
      · exact le_of_lt (hpre c h)
      · rcases List.mem_cons.mp h with rfl | h
        · exact le_rfl
        · exact hpost c h

/-- C1 at concrete buckets: of the depths 0.1, 0.9, 0.5 the contact of depth 0.9 is
returned, of two equally deep contacts the first one, and of the depths 0 and -1 none. -/
theorem getDeepestInterpenetration_spec_witness :
    getDeepestInterpenetration
        [contactOfDepth 1 (1/10), contactOfDepth 1 (9/10), contactOfDepth 1 (1/2)]
      = some (contactOfDepth 1 (9/10)) ∧
    getDeepestInterpenetration [contactOfDepth 1 (1/2), contactOfDepth 2 (1/2)]
      = some (contactOfDepth 1 (1/2)) ∧
    getDeepestInterpenetration [contactOfDepth 1 0, contactOfDepth 1 (-1)] = none := by
  refine ⟨?_, ?_, ?_⟩
  · simp [getDeepestInterpenetration, deepestStep, contactOfDepth]
    norm_num
  · simp [getDeepestInterpenetration, deepestStep, contactOfDepth]
  · refine (getDeepestInterpenetration_spec _).1.mpr ?_
    intro c hc
    simp [contactOfDepth] at hc
    rcases hc with rfl | rfl <;> norm_num

/-! ## Arithmetic of `MCFloat` and of vectors -/

namespace MCFloat

@[simp] theorem fin_add_fin (a b : ℚ) : fin a + fin b = fin (a + b) := rfl
@[simp] theorem fin_sub_fin (a b : ℚ) : fin a - fin b = fin (a - b) := rfl
@[simp] theorem fin_mul_fin (a b : ℚ) : fin a * fin b = fin (a * b) := rfl
@[simp] theorem neg_fin (a : ℚ) : -fin a = fin (-a) := rfl
@[simp] theorem neg_nonfinite : -nonfinite = nonfinite := rfl
@[simp] theorem add_nonfinite (a : MCFloat) : a + nonfinite = nonfinite := by cases a <;> rfl
@[simp] theorem nonfinite_add (a : MCFloat) : nonfinite + a = nonfinite := by cases a <;> rfl
@[simp] theorem sub_nonfinite (a : MCFloat) : a - nonfinite = nonfinite := by cases a <;> rfl
@[simp] theorem nonfinite_sub (a : MCFloat) : nonfinite - a = nonfinite := by cases a <;> rfl
@[simp] theorem mul_nonfinite (a : MCFloat) : a * nonfinite = nonfinite := by cases a <;> rfl
@[simp] theorem nonfinite_mul (a : MCFloat) : nonfinite * a = nonfinite := by cases a <;> rfl
@[simp] theorem div_nonfinite (a : MCFloat) : a / nonfinite = nonfinite := by cases a <;> rfl
@[simp] theorem nonfinite_div (a : MCFloat) : nonfinite / a = nonfinite := by cases a <;> rfl

theorem fin_div_fin (a b : ℚ) : fin a / fin b = if b = 0 then nonfinite else fin (a / b) :=
  rfl

@[simp] theorem fin_div_zero (a : ℚ) : fin a / fin 0 = nonfinite := by
  simp [fin_div_fin]

theorem fin_div_of_ne {b : ℚ} (a : ℚ) (h : b ≠ 0) : fin a / fin b = fin (a / b) := by
  simp [fin_div_fin, h]

theorem fin_div_of_eq {b : ℚ} (a : ℚ) (h : b = 0) : fin a / fin b = nonfinite := by
  simp [fin_div_fin, h]

@[simp] theorem neg_neg_eq (a : MCFloat) : - -a = a := by
  cases a <;> simp

end MCFloat

namespace MCVector3dF

@[simp] theorem add_i (a b : MCVector3dF) : (a + b).i = a.i + b.i := rfl
@[simp] theorem add_j (a b : MCVector3dF) : (a + b).j = a.j + b.j := rfl
@[simp] theorem add_k (a b : MCVector3dF) : (a + b).k = a.k + b.k := rfl
@[simp] theorem sub_i (a b : MCVector3dF) : (a - b).i = a.i - b.i := rfl
@[simp] theorem sub_j (a b : MCVector3dF) : (a - b).j = a.j - b.j := rfl
@[simp] theorem sub_k (a b : MCVector3dF) : (a - b).k = a.k - b.k := rfl
@[simp] theorem neg_i (a : MCVector3dF) : (-a).i = -a.i := rfl
@[simp] theorem neg_j (a : MCVector3dF) : (-a).j = -a.j := rfl
@[simp] theorem neg_k (a : MCVector3dF) : (-a).k = -a.k := rfl
@[simp] theorem smul_i (a : MCVector3dF) (n : MCFloat) : (a * n).i = a.i * n := rfl
@[simp] theorem smul_j (a : MCVector3dF) (n : MCFloat) : (a * n).j = a.j * n := rfl
@[simp] theorem smul_k (a : MCVector3dF) (n : MCFloat) : (a * n).k = a.k * n := rfl
@[simp] theorem sdiv_i (a : MCVector3dF) (n : MCFloat) : (a / n).i = a.i / n := rfl
@[simp] theorem sdiv_j (a : MCVector3dF) (n : MCFloat) : (a / n).j = a.j / n := rfl
@[simp] theorem sdiv_k (a : MCVector3dF) (n : MCFloat) : (a / n).k = a.k / n := rfl
@[simp] theorem ofRat_i (x y z : ℚ) : (ofRat x y z).i = MCFloat.fin x := rfl
@[simp] theorem ofRat_j (x y z : ℚ) : (ofRat x y z).j = MCFloat.fin y := rfl
@[simp] theorem ofRat_k (x y z : ℚ) : (ofRat x y z).k = MCFloat.fin z := rfl
@[simp] theorem nonfinite_i : nonfinite.i = MCFloat.nonfinite := rfl
@[simp] theorem nonfinite_j : nonfinite.j = MCFloat.nonfinite := rfl
@[simp] theorem nonfinite_k : nonfinite.k = MCFloat.nonfinite := rfl

@[simp] theorem vec_neg_neg (a : MCVector3dF) : - -a = a := by
  ext <;> simp

@[simp] theorem ofRat_add_ofRat (a b c x y z : ℚ) :
    ofRat a b c + ofRat x y z = ofRat (a + x) (b + y) (c + z) := rfl

@[simp] theorem ofRat_sub_ofRat (a b c x y z : ℚ) :
    ofRat a b c - ofRat x y z = ofRat (a - x) (b - y) (c - z) := rfl

@[simp] theorem ofRat_smul_fin (a b c s : ℚ) :
    ofRat a b c * MCFloat.fin s = ofRat (a * s) (b * s) (c * s) := rfl

@[simp] theorem neg_ofRat (a b c : ℚ) : -ofRat a b c = ofRat (-a) (-b) (-c) := rfl

@[simp] theorem smul_nonfinite (a : MCVector3dF) : a * MCFloat.nonfinite = nonfinite := by
  ext <;> simp

@[simp] theorem vec_add_nonfinite (a : MCVector3dF) : a + nonfinite = nonfinite := by
  ext <;> simp

theorem ofRat_inj {a b c x y z : ℚ} :
    ofRat a b c = ofRat x y z ↔ a = x ∧ b = y ∧ c = z := by
  simp [ofRat]

end MCVector3dF

/-! ## What `processContact` does -/

/-- A stationary `pa` is skipped: the world is returned as it is. -/
theorem processContact_of_stationary (lengthFast : MCVector3dF → MCFloat) (w : World)
    (pa pb : ObjId) (contact : MCContact) (displacement linearImpulse : MCVector3dF)
    (restitution : ℚ) (h : (w pa).stationary = true) :
    processContact lengthFast w pa pb contact displacement linearImpulse restitution = w := by
  simp [processContact, h]

/-- For a `pa` that is not stationary the three updates of `processContact`, written out:
the linear impulse is scaled by the outer `linearBalance`, which is one. -/
theorem processContact_of_moving (lengthFast : MCVector3dF → MCFloat) (w : World)
    (pa pb : ObjId) (contact : MCContact) (displacement linearImpulse : MCVector3dF)
    (restitution : ℚ) (h : (w pa).stationary = false) :
    processContact lengthFast w pa pb contact displacement linearImpulse restitution =
      Function.update w pa
        { w pa with
          location := (w pa).location + displacement *
            (MCFloat.fin (w pa).invMass / MCFloat.fin ((w pa).invMass + (w pb).invMass))
          velocity := (w pa).velocity + linearImpulse * MCFloat.fin (1 + restitution) *
            (MCFloat.fin (w pa).invMass / MCFloat.fin ((w pa).invMass + (w pb).invMass)) *
            MCFloat.fin 1
          angularVelocity := (w pa).angularVelocity +
            -(MCVector3dF.cross (linearImpulse * MCFloat.fin (w pa).mass)
                (contact.contactPoint - (w pa).location)
                / MCFloat.fin (w pa).momentOfInertia).k *
              MCFloat.fin (1 + restitution) *
              (MCFloat.fin (w pa).invMomentOfInertia /
                MCFloat.fin ((w pa).invMomentOfInertia + (w pb).invMomentOfInertia)) } := by
  simp [processContact, h, MCObject.displace, MCObject.addLinearImpulse,
    MCObject.addRotationalImpulse]

/-- Objects other than `pa` are not written by `processContact`. -/
theorem processContact_other (lengthFast : MCVector3dF → MCFloat) (w : World)
    (pa pb : ObjId) (contact : MCContact) (displacement linearImpulse : MCVector3dF)
    (restitution : ℚ) (x : ObjId) (hx : x ≠ pa) :
    processContact lengthFast w pa pb contact displacement linearImpulse restitution x
      = w x := by
  cases h : (w pa).stationary
  · rw [processContact_of_moving _ _ _ _ _ _ _ _ h, Function.update_noteq hx]
  · rw [processContact_of_stationary _ _ _ _ _ _ _ _ h]

@[simp] theorem MCVector3dF.nonfinite_smul (n : MCFloat) :
    MCVector3dF.nonfinite * n = MCVector3dF.nonfinite := by
  ext <;> simp

/-- The state of any object after `processContact`. -/
theorem processContact_apply (lengthFast : MCVector3dF → MCFloat) (w : World)
    (pa pb : ObjId) (contact : MCContact) (displacement linearImpulse : MCVector3dF)
    (restitution : ℚ) (x : ObjId) :
    processContact lengthFast w pa pb contact displacement linearImpulse restitution x =
      if x = pa ∧ (w pa).stationary = false then
        { w pa with
          location := (w pa).location + displacement *
            (MCFloat.fin (w pa).invMass / MCFloat.fin ((w pa).invMass + (w pb).invMass))
          velocity := (w pa).velocity + linearImpulse * MCFloat.fin (1 + restitution) *
            (MCFloat.fin (w pa).invMass / MCFloat.fin ((w pa).invMass + (w pb).invMass)) *
            MCFloat.fin 1
          angularVelocity := (w pa).angularVelocity +
            -(MCVector3dF.cross (linearImpulse * MCFloat.fin (w pa).mass)
                (contact.contactPoint - (w pa).location)
                / MCFloat.fin (w pa).momentOfInertia).k *
              MCFloat.fin (1 + restitution) *
              (MCFloat.fin (w pa).invMomentOfInertia /
                MCFloat.fin ((w pa).invMomentOfInertia + (w pb).invMomentOfInertia)) }
      else w x := by
  by_cases hx : x = pa
  · subst hx
    cases h : (w x).stationary
    · rw [processContact_of_moving _ _ _ _ _ _ _ _ h]
      simp
    · rw [processContact_of_stationary _ _ _ _ _ _ _ _ h]
      simp
  · rw [processContact_other _ _ _ _ _ _ _ _ _ hx]
    simp [hx]

/-! ## The linear impulse and the linear balance -/

/-- C2 (what the source does): for a `self` that is not stationary and has a shape of any
radius, and `invMass(self) + invMass(other) ≠ 0`, `processContact` adds
`linearImpulse * (1 + restitution) * massScalingSelf * 1` to the velocity of `self`,
whatever the arm and the radius are: the attenuation computed inside the block of
`if (pa.shape())` does not reach the impulse. -/
theorem processContact_velocity_unattenuated (lengthFast : MCVector3dF → MCFloat)
    (w : World) (pa pb : ObjId) (contact : MCContact)
    (displacement linearImpulse : MCVector3dF) (restitution radius : ℚ)
    (hmoving : (w pa).stationary = false) (_hshape : (w pa).shape = some ⟨radius⟩)
    (hmass : (w pa).invMass + (w pb).invMass ≠ 0) :
    (processContact lengthFast w pa pb contact displacement linearImpulse restitution
        pa).velocity =
      (w pa).velocity + linearImpulse * MCFloat.fin (1 + restitution) *
        MCFloat.fin ((w pa).invMass / ((w pa).invMass + (w pb).invMass)) *
        MCFloat.fin 1 := by
  rw [processContact_apply]
  simp [hmoving, MCFloat.fin_div_of_ne _ hmass]

/-- C2 at the scenario: the contact point lies one radius (half a diameter) off the centre
of body A, so the specification scales the linear impulse `(-2, 0, 0)` by the linear balance
1/2 and has the velocity of A change by `(-3/4, 0, 0)`; the source changes it by
`(-3/2, 0, 0)`. -/
theorem processContact_velocity_unattenuated_witness :
    lengthSquared 1 0 0 = 1 * 1 ∧ specLinearBalance 1 1 = 1/2 ∧
    (scenarioWorld 1).velocity = MCVector3dF.ofRat 0 0 0 ∧
    (processContact lengthStandIn scenarioWorld 1 2 scenarioContact
        (MCVector3dF.ofRat (1/5) 0 0) (MCVector3dF.ofRat (-2) 0 0) (1/2) 1).velocity
      = MCVector3dF.ofRat (-3/2) 0 0 ∧
    MCVector3dF.ofRat (-3/2) 0 0 ≠
      MCVector3dF.ofRat (-2 * (1 + 1/2) * ((1/10) / (1/10 + 1/10)) * specLinearBalance 1 1)
        0 0 := by
  have h := processContact_velocity_unattenuated lengthStandIn scenarioWorld 1 2
    scenarioContact (MCVector3dF.ofRat (1/5) 0 0) (MCVector3dF.ofRat (-2) 0 0) (1/2) 1
    (by simp [scenarioWorld, scenarioBodyA]) (by simp [scenarioWorld, scenarioBodyA])
    (by simp [scenarioWorld, scenarioBodyA, scenarioBodyB])
  have hbal : specLinearBalance 1 1 = 1/2 := by
    unfold specLinearBalance
    norm_num
  refine ⟨by norm_num [lengthSquared], hbal, by simp [scenarioWorld, scenarioBodyA], ?_, ?_⟩
  · rw [h]
    simp [scenarioWorld, scenarioBodyA, scenarioBodyB, MCVector3dF.ofRat_inj]
    norm_num
  · rw [hbal]
    simp [MCVector3dF.ofRat_inj]
    norm_num

/-! ## Zero denominators -/

/-- C3 (as amended): `processContact` has no guard for a `self` that is not stationary.
When `invMass(self) + invMass(other) = 0` the mass scaling is a division by zero and the
location and the velocity of `self` become non-finite; when
`invInertia(self) + invInertia(other) = 0` the inertia scaling is a division by zero and
the angular velocity of `self` becomes non-finite. -/
theorem processContact_zero_denominator (lengthFast : MCVector3dF → MCFloat) (w : World)
    (pa pb : ObjId) (contact : MCContact) (displacement linearImpulse : MCVector3dF)
    (restitution : ℚ) (hmoving : (w pa).stationary = false) :
    ((w pa).invMass + (w pb).invMass = 0 →
      (processContact lengthFast w pa pb contact displacement linearImpulse restitution
          pa).location = MCVector3dF.nonfinite ∧
      (processContact lengthFast w pa pb contact displacement linearImpulse restitution
          pa).velocity = MCVector3dF.nonfinite) ∧
    ((w pa).invMomentOfInertia + (w pb).invMomentOfInertia = 0 →
      (processContact lengthFast w pa pb contact displacement linearImpulse restitution
          pa).angularVelocity = MCFloat.nonfinite) := by
  rw [processContact_apply]
  refine ⟨?_, ?_⟩
  · intro h
    simp [hmoving, MCFloat.fin_div_of_eq _ h]
  · intro h
    simp [hmoving, MCFloat.fin_div_of_eq _ h]

/-- C3 at two bodies of infinite mass: the inverse masses and the inverse inertias sum to
zero, and `processContact` turns the finite location, velocity and angular velocity of
object 1 into non-finite values. -/
theorem processContact_zero_denominator_witness :
    (processContact lengthStandIn immovableWorld 1 2 (contactOfDepth 2 (1/5))
        (MCVector3dF.ofRat (1/5) 0 0) (MCVector3dF.ofRat (-2) 0 0) (1/2) 1).location
      = MCVector3dF.nonfinite ∧
    (processContact lengthStandIn immovableWorld 1 2 (contactOfDepth 2 (1/5))
        (MCVector3dF.ofRat (1/5) 0 0) (MCVector3dF.ofRat (-2) 0 0) (1/2) 1).velocity
      = MCVector3dF.nonfinite ∧
    (processContact lengthStandIn immovableWorld 1 2 (contactOfDepth 2 (1/5))
        (MCVector3dF.ofRat (1/5) 0 0) (MCVector3dF.ofRat (-2) 0 0) (1/2) 1).angularVelocity
      = MCFloat.nonfinite := by
  have h := processContact_zero_denominator lengthStandIn immovableWorld 1 2
    (contactOfDepth 2 (1/5)) (MCVector3dF.ofRat (1/5) 0 0) (MCVector3dF.ofRat (-2) 0 0)
    (1/2) (by simp [immovableWorld, immovableBody])
  exact ⟨(h.1 (by simp [immovableWorld, immovableBody])).1,
    (h.1 (by simp [immovableWorld, immovableBody])).2,
    h.2 (by simp [immovableWorld, immovableBody])⟩

/-- C3 as stated fails: object 1 of `immovableWorld` is not stationary, the inverse masses
of objects 1 and 2 sum to zero, and `processContact` does not leave the location of
object 1 unchanged. -/
theorem processContact_zero_invMass_not_skipped :
    (immovableWorld 1).stationary = false ∧
    (immovableWorld 1).invMass + (immovableWorld 2).invMass = 0 ∧
    (immovableWorld 1).location = MCVector3dF.ofRat 0 0 0 ∧
    (processContact lengthStandIn immovableWorld 1 2 (contactOfDepth 2 (1/5))
        (MCVector3dF.ofRat (1/5) 0 0) (MCVector3dF.ofRat (-2) 0 0) (1/2) 1).location
      ≠ (immovableWorld 1).location := by
  refine ⟨by simp [immovableWorld, immovableBody], by simp [immovableWorld, immovableBody],
    by simp [immovableWorld, immovableBody], ?_⟩
  rw [processContact_apply]
  simp [immovableWorld, immovableBody, MCVector3dF.ofRat, MCVector3dF.nonfinite,
    MCVector3dF.ext_iff]

/-! ## Clearing of the contacts -/

/-- C6: after `generateImpulsesFromDeepestContacts` on an object its contact hash is
empty, whatever buckets and contacts it held. -/
theorem generateImpulses_contacts_empty (lengthFast : MCVector3dF → MCFloat) (w : World)
    (object : ObjId) :
    (generateImpulsesFromDeepestContacts lengthFast w object object).contacts = [] := by
  simp [generateImpulsesFromDeepestContacts, MCObject.deleteContacts]

/-! ## Frame properties: what a step leaves alone -/

/-- A stationary object is not written by `processContact`, in whichever role. -/
theorem processContact_apply_stationary (lengthFast : MCVector3dF → MCFloat) (w : World)
    (pa pb : ObjId) (contact : MCContact) (displacement linearImpulse : MCVector3dF)
    (restitution : ℚ) (x : ObjId) (hx : (w x).stationary = true) :
    processContact lengthFast w pa pb contact displacement linearImpulse restitution x
      = w x := by
  rw [processContact_apply]
  split_ifs with h
  · rw [h.1] at hx
    rw [h.2] at hx
    cases hx
  · rfl

/-- The contact hashes are not written by `processContact`. -/
theorem processContact_contacts (lengthFast : MCVector3dF → MCFloat) (w : World)
    (pa pb : ObjId) (contact : MCContact) (displacement linearImpulse : MCVector3dF)
    (restitution : ℚ) (x : ObjId) :
    (processContact lengthFast w pa pb contact displacement linearImpulse restitution
        x).contacts = (w x).contacts := by
  rw [processContact_apply]
  split_ifs with h
  · rw [h.1]
  · rfl

/-- Objects other than `object` and the object of the contact are not written by
`dischargeContact`. -/
theorem dischargeContact_other (lengthFast : MCVector3dF → MCFloat) (w : World)
    (object : ObjId) (contact : MCContact) (x : ObjId) (hx : x ≠ object)
    (hxc : x ≠ contact.object) :
    dischargeContact lengthFast w object contact x = w x := by
  unfold dischargeContact
  rw [Function.update_noteq hxc, processContact_other _ _ _ _ _ _ _ _ _ hxc,
    processContact_other _ _ _ _ _ _ _ _ _ hx]

/-- Apart from its contact hash, a stationary object is not written by
`dischargeContact`. -/
theorem dischargeContact_stationary (lengthFast : MCVector3dF → MCFloat) (w : World)
    (object : ObjId) (contact : MCContact) (x : ObjId) (hx : (w x).stationary = true) :
    (dischargeContact lengthFast w object contact x).deleteContacts
      = (w x).deleteContacts := by
  unfold dischargeContact
  have inner : ∀ (pa pb : ObjId) (c : MCContact) (d i : MCVector3dF) (r : ℚ),
      (processContact lengthFast w pa pb c d i r x).stationary = true := by
    intro pa pb c d i r
    rw [processContact_apply_stationary _ _ _ _ _ _ _ _ _ hx]
    exact hx
  by_cases hxc : x = contact.object
  · subst hxc
    rw [Function.update_same,
      processContact_apply_stationary _ _ _ _ _ _ _ _ _ (inner _ _ _ _ _ _),
      processContact_apply_stationary _ _ _ _ _ _ _ _ _ hx]
    rfl
  · rw [Function.update_noteq hxc,
      processContact_apply_stationary _ _ _ _ _ _ _ _ _ (inner _ _ _ _ _ _),
      processContact_apply_stationary _ _ _ _ _ _ _ _ _ hx]

/-- The contact returned by `getDeepestInterpenetration` is one of the bucket. -/
theorem getDeepestInterpenetration_mem (contacts : List MCContact) (best : MCContact)
    (h : getDeepestInterpenetration contacts = some best) : best ∈ contacts := by
  unfold getDeepestInterpenetration at h
  rcases foldl_deepestStep contacts 0 none with
    ⟨heq, _⟩ | ⟨pre, c, post, hsplit, heq, _, _, _⟩
  · rw [heq] at h
    cases h
  · rw [heq] at h
    cases h
    simp [hsplit]

/-- Apart from its contact hash, a stationary object is not written by the loop of
`generateImpulsesFromDeepestContacts`. -/
theorem foldl_resolveBucket_stationary (lengthFast : MCVector3dF → MCFloat)
    (object : ObjId) (buckets : List (ObjId × List MCContact)) (w : World) (x : ObjId)
    (hx : (w x).stationary = true) :
    (buckets.foldl (resolveBucket lengthFast object) w x).deleteContacts
      = (w x).deleteContacts := by
  induction buckets generalizing w with
  | nil => rfl
  | cons bucket rest ih =>
    have hstep : (resolveBucket lengthFast object w bucket x).deleteContacts
        = (w x).deleteContacts := by
      cases hbest : getDeepestInterpenetration bucket.2 with
      | none => simp [resolveBucket, hbest]
      | some best =>
        simp only [resolveBucket, hbest]
        exact dischargeContact_stationary lengthFast w object _ x hx
    have hflag : (resolveBucket lengthFast object w bucket x).stationary = true := by
      have := congrArg MCObject.stationary hstep
      simpa [MCObject.deleteContacts, hx] using this
    rw [List.foldl_cons, ih _ hflag, hstep]

/-- Objects other than `object` that none of the contacts refers to are not written by
the loop of `generateImpulsesFromDeepestContacts`. -/
theorem foldl_resolveBucket_other (lengthFast : MCVector3dF → MCFloat)
    (object : ObjId) (buckets : List (ObjId × List MCContact)) (w : World) (x : ObjId)
    (hx : x ≠ object) (hxc : ∀ bucket ∈ buckets, ∀ c ∈ bucket.2, c.object ≠ x) :
    buckets.foldl (resolveBucket lengthFast object) w x = w x := by
  induction buckets generalizing w with
  | nil => rfl
  | cons bucket rest ih =>
    have hstep : resolveBucket lengthFast object w bucket x = w x := by
      cases hbest : getDeepestInterpenetration bucket.2 with
      | none => simp [resolveBucket, hbest]
      | some best =>
        simp only [resolveBucket, hbest]
        have hmem := getDeepestInterpenetration_mem _ _ hbest
        exact dischargeContact_other lengthFast w object best x hx
          (fun h => hxc bucket (by simp) best hmem h.symm)
    rw [List.foldl_cons, ih _ (fun b hb => hxc b (List.mem_cons_of_mem _ hb)), hstep]

/-- The final `deleteContacts()` of `generateImpulsesFromDeepestContacts` writes the
contact hash only. -/
theorem generateImpulses_deleteContacts (lengthFast : MCVector3dF → MCFloat) (w : World)
    (object x : ObjId) :
    (generateImpulsesFromDeepestContacts lengthFast w object x).deleteContacts =
      ((w object).contacts.foldl (resolveBucket lengthFast object) w x).deleteContacts := by
  unfold generateImpulsesFromDeepestContacts
  by_cases hx : x = object
  · subst hx
    rw [Function.update_same]
    rfl
  · rw [Function.update_noteq hx]

/-- Objects with the same state apart from the contact hash have the same kinematics. -/
theorem kinematics_eq_of_deleteContacts_eq {a b : MCObject}
    (h : a.deleteContacts = b.deleteContacts) : a.kinematics = b.kinematics := by
  have h1 := congrArg MCObject.location h
  have h2 := congrArg MCObject.velocity h
  have h3 := congrArg MCObject.angularVelocity h
  simp only [MCObject.deleteContacts] at h1 h2 h3
  simp [MCObject.kinematics, h1, h2, h3]

/-! ## Stationary objects -/

/-- C7: for a stationary object `A`, `processContact` called with `A` as `self` returns
the world unchanged, whatever the other object, the contact, the displacement, the linear
impulse and the restitution are; the location, velocity and angular velocity of `A` are
unchanged by `generateImpulsesFromDeepestContacts` on any object; and when the pair of `A`
and another object `B` is discharged, from the side of `A` or from the side of `B`, the
location, velocity and angular velocity of every object other than `B` are unchanged. -/
theorem stationary_object_untouched (lengthFast : MCVector3dF → MCFloat) (w : World)
    (A : ObjId) (hA : (w A).stationary = true) :
    (∀ (pb : ObjId) (contact : MCContact) (displacement linearImpulse : MCVector3dF)
        (restitution : ℚ),
      processContact lengthFast w A pb contact displacement linearImpulse restitution = w) ∧
    (∀ object : ObjId,
      (generateImpulsesFromDeepestContacts lengthFast w object A).kinematics
        = (w A).kinematics) ∧
    (∀ (B : ObjId) (contact : MCContact), contact.object = B → ∀ x, x ≠ B →
      (dischargeContact lengthFast w A contact x).kinematics = (w x).kinematics) ∧
    (∀ (B : ObjId) (contact : MCContact), contact.object = A → ∀ x, x ≠ B →
      (dischargeContact lengthFast w B contact x).kinematics = (w x).kinematics) := by
  refine ⟨?_, ?_, ?_, ?_⟩
  · intro pb contact displacement linearImpulse restitution
    exact processContact_of_stationary _ _ _ _ _ _ _ _ hA
  · intro object
    apply kinematics_eq_of_deleteContacts_eq
    rw [generateImpulses_deleteContacts]
    exact foldl_resolveBucket_stationary lengthFast object _ w A hA
  · intro B contact hB x hx
    by_cases hxA : x = A
    · subst hxA
      exact kinematics_eq_of_deleteContacts_eq
        (dischargeContact_stationary lengthFast w x contact x hA)
    · rw [dischargeContact_other lengthFast w A contact x hxA (by rw [hB]; exact hx)]
  · intro B contact hB x hx
    by_cases hxA : x = A
    · subst hxA
      exact kinematics_eq_of_deleteContacts_eq
        (dischargeContact_stationary lengthFast w B contact x hA)
    · rw [dischargeContact_other lengthFast w B contact x hx (by rw [hB]; exact hxA)]

/-- C7 at a wall: object 1 of `wallWorld` is stationary; resolving the moving object 2
against it leaves the location, velocity and angular velocity of the wall as they were,
while object 2 is pushed from `(9/5, 0, 0)` to `(2, 0, 0)` and its velocity turns from
`(-2, 0, 0)` to `(1, 0, 0)`. -/
theorem stationary_object_untouched_witness :
    (wallWorld 1).stationary = true ∧
    (generateImpulsesFromDeepestContacts lengthStandIn wallWorld 2 1).kinematics
      = (wallWorld 1).kinematics ∧
    (generateImpulsesFromDeepestContacts lengthStandIn wallWorld 1 1).kinematics
      = (wallWorld 1).kinematics ∧
    (generateImpulsesFromDeepestContacts lengthStandIn wallWorld 2 2).location
      = MCVector3dF.ofRat 2 0 0 ∧
    (generateImpulsesFromDeepestContacts lengthStandIn wallWorld 2 2).velocity
      = MCVector3dF.ofRat 1 0 0 := by
  have hwall : (wallWorld 1).stationary = true := by simp [wallWorld, wallBody]
  have h := stationary_object_untouched lengthStandIn wallWorld 1 hwall
  refine ⟨hwall, h.2.1 2, h.2.1 1, ?_, ?_⟩
  · simp [generateImpulsesFromDeepestContacts, resolveBucket, getDeepestInterpenetration,
      deepestStep, dischargeContact, processContact_apply, wallWorld, wallBody,
      scenarioBodyB, wallContact, MCObject.deleteContacts, MCObject.deleteContactsWith,
      MCVector3dF.dot, MCVector3dF.toVector2d, MCVector2dF.toVector3d,
      MCFloat.fin_div_fin, MCVector3dF.ofRat_inj]
    norm_num
  · simp [generateImpulsesFromDeepestContacts, resolveBucket, getDeepestInterpenetration,
      deepestStep, dischargeContact, processContact_apply, wallWorld, wallBody,
      scenarioBodyB, wallContact, MCObject.deleteContacts, MCObject.deleteContactsWith,
      MCVector3dF.dot, MCVector3dF.toVector2d, MCVector2dF.toVector3d,
      MCFloat.fin_div_fin, MCVector3dF.ofRat_inj]
    norm_num

/-! ## Parameters are only read -/

@[simp] theorem processContact_mass (lengthFast : MCVector3dF → MCFloat) (w : World)
    (pa pb : ObjId) (contact : MCContact) (displacement linearImpulse : MCVector3dF)
    (restitution : ℚ) (x : ObjId) :
    (processContact lengthFast w pa pb contact displacement linearImpulse restitution
        x).mass = (w x).mass := by
  rw [processContact_apply]
  split_ifs with h
  · rw [h.1]
  · rfl

@[simp] theorem processContact_invMass (lengthFast : MCVector3dF → MCFloat) (w : World)
    (pa pb : ObjId) (contact : MCContact) (displacement linearImpulse : MCVector3dF)
    (restitution : ℚ) (x : ObjId) :
    (processContact lengthFast w pa pb contact displacement linearImpulse restitution
        x).invMass = (w x).invMass := by
  rw [processContact_apply]
  split_ifs with h
  · rw [h.1]
  · rfl

@[simp] theorem processContact_momentOfInertia (lengthFast : MCVector3dF → MCFloat) (w : World)
    (pa pb : ObjId) (contact : MCContact) (displacement linearImpulse : MCVector3dF)
    (restitution : ℚ) (x : ObjId) :
    (processContact lengthFast w pa pb contact displacement linearImpulse restitution
        x).momentOfInertia = (w x).momentOfInertia := by
  rw [processContact_apply]
  split_ifs with h
  · rw [h.1]
  · rfl

@[simp] theorem processContact_invMomentOfInertia (lengthFast : MCVector3dF → MCFloat) (w : World)
    (pa pb : ObjId) (contact : MCContact) (displacement linearImpulse : MCVector3dF)
    (restitution : ℚ) (x : ObjId) :
    (processContact lengthFast w pa pb contact displacement linearImpulse restitution
        x).invMomentOfInertia = (w x).invMomentOfInertia := by
  rw [processContact_apply]
  split_ifs with h
  · rw [h.1]
  · rfl

@[simp] theorem processContact_restitution (lengthFast : MCVector3dF → MCFloat) (w : World)
    (pa pb : ObjId) (contact : MCContact) (displacement linearImpulse : MCVector3dF)
    (restitution : ℚ) (x : ObjId) :
    (processContact lengthFast w pa pb contact displacement linearImpulse restitution
        x).restitution = (w x).restitution := by
  rw [processContact_apply]
  split_ifs with h
  · rw [h.1]
  · rfl

@[simp] theorem processContact_stationary (lengthFast : MCVector3dF → MCFloat) (w : World)
    (pa pb : ObjId) (contact : MCContact) (displacement linearImpulse : MCVector3dF)
    (restitution : ℚ) (x : ObjId) :
    (processContact lengthFast w pa pb contact displacement linearImpulse restitution
        x).stationary = (w x).stationary := by
  rw [processContact_apply]
  split_ifs with h
  · rw [h.1]
  · rfl

@[simp] theorem processContact_shape (lengthFast : MCVector3dF → MCFloat) (w : World)
    (pa pb : ObjId) (contact : MCContact) (displacement linearImpulse : MCVector3dF)
    (restitution : ℚ) (x : ObjId) :
    (processContact lengthFast w pa pb contact displacement linearImpulse restitution
        x).shape = (w x).shape := by
  rw [processContact_apply]
  split_ifs with h
  · rw [h.1]
  · rfl

/-! ## Positional correction -/

/-- The location of `object` after `dischargeContact` on two different objects that are
not stationary. -/
theorem dischargeContact_location_self (lengthFast : MCVector3dF → MCFloat) (w : World)
    (object : ObjId) (contact : MCContact) (hne : object ≠ contact.object)
    (hmoving : (w object).stationary = false) :
    (dischargeContact lengthFast w object contact object).location =
      (w object).location +
        contact.contactNormal * MCFloat.fin contact.interpenetrationDepth *
          (MCFloat.fin (w object).invMass /
            MCFloat.fin ((w object).invMass + (w contact.object).invMass)) := by
  unfold dischargeContact
  rw [Function.update_noteq hne, processContact_other _ _ _ _ _ _ _ _ _ hne,
    processContact_apply]
  simp [hmoving]

/-- The location of the other object after `dischargeContact` on two different objects
that are not stationary. -/
theorem dischargeContact_location_other (lengthFast : MCVector3dF → MCFloat) (w : World)
    (object : ObjId) (contact : MCContact) (hne : object ≠ contact.object)
    (hmoving : (w contact.object).stationary = false) :
    (dischargeContact lengthFast w object contact contact.object).location =
      (w contact.object).location +
        -(contact.contactNormal * MCFloat.fin contact.interpenetrationDepth) *
          (MCFloat.fin (w contact.object).invMass /
            MCFloat.fin ((w contact.object).invMass + (w object).invMass)) := by
  have hne2 : contact.object ≠ object := fun h => hne h.symm
  unfold dischargeContact
  rw [Function.update_same]
  simp only [MCObject.deleteContactsWith]
  rw [processContact_apply]
  simp only [true_and]
  rw [processContact_other _ _ _ _ _ _ _ _ _ hne2]
  simp [hmoving]

/-- The squared length of a vector scaled by `s`. -/
theorem lengthSquared_scaled (x y z s : ℚ) :
    lengthSquared (x * s) (y * s) (z * s) = lengthSquared x y z * (s * s) := by
  unfold lengthSquared
  ring

/-- The squared length of a vector is that of its negation. -/
theorem lengthSquared_neg (x y z : ℚ) :
    lengthSquared (-x) (-y) (-z) = lengthSquared x y z := by
  unfold lengthSquared
  ring

/-- Of two objects with inverse masses that are not negative and a positive sum, the one
with the smaller inverse mass has the smaller mass scaling. -/
theorem massScaling_le {a b : ℚ} (ha : 0 ≤ a) (hsum : 0 < a + b) (hab : a ≤ b) :
    0 ≤ massScaling a b ∧ massScaling a b ≤ massScaling b a := by
  unfold massScaling
  refine ⟨div_nonneg ha (le_of_lt hsum), ?_⟩
  rw [add_comm b a]
  exact div_le_div_of_nonneg_right hab (le_of_lt hsum)

/-- Scaling a vector by the smaller of two non-negative factors gives the shorter vector. -/
theorem lengthSquared_scaled_le (x y z : ℚ) {s t : ℚ} (hs : 0 ≤ s) (hst : s ≤ t) :
    lengthSquared (x * s) (y * s) (z * s) ≤ lengthSquared (-x * t) (-y * t) (-z * t) := by
  rw [lengthSquared_scaled, lengthSquared_scaled, lengthSquared_neg]
  have hk : 0 ≤ lengthSquared x y z := by
    unfold lengthSquared
    exact add_nonneg (add_nonneg (mul_self_nonneg x) (mul_self_nonneg y)) (mul_self_nonneg z)
  exact mul_le_mul_of_nonneg_left (mul_self_le_mul_self hs hst) hk

/-- Exact arithmetic only (in single precision the sum of a location and a small
correction is rounded, and the heavier object can end up moved further than the lighter
one): for a `self` that is not stationary and inverse masses that are not negative and
have a positive sum, `processContact` adds exactly
`displacement * invMass(self) / (invMass(self) + invMass(other))` to the location of
`self`.  Hence, when `A` discharges a contact of finite normal `(nx, ny, nz)` and depth
`d` against a different object `B` that is not stationary either, the location of `A`
changes by `(nx, ny, nz) * d * massScaling A`, that of `B` by
`-(nx, ny, nz) * d * massScaling B`, and whichever of the two has the smaller inverse mass
(the heavier one) has the location change of smaller or equal length. -/
theorem displacement_scaled_by_inverse_mass (lengthFast : MCVector3dF → MCFloat)
    (w : World) (A B : ObjId) (hmoving : (w A).stationary = false)
    (hA : 0 ≤ (w A).invMass) (hB : 0 ≤ (w B).invMass)
    (hsum : 0 < (w A).invMass + (w B).invMass) :
    (∀ (contact : MCContact) (displacement linearImpulse : MCVector3dF) (restitution : ℚ),
      (processContact lengthFast w A B contact displacement linearImpulse restitution
          A).location =
        (w A).location +
          displacement * MCFloat.fin ((w A).invMass / ((w A).invMass + (w B).invMass))) ∧
    (∀ (contact : MCContact) (nx ny nz : ℚ), A ≠ B → (w B).stationary = false →
      contact.object = B → contact.contactNormal = MCVector3dF.ofRat nx ny nz →
      (dischargeContact lengthFast w A contact A).location =
        (w A).location + MCVector3dF.ofRat
          (nx * contact.interpenetrationDepth * massScaling (w A).invMass (w B).invMass)
          (ny * contact.interpenetrationDepth * massScaling (w A).invMass (w B).invMass)
          (nz * contact.interpenetrationDepth * massScaling (w A).invMass (w B).invMass) ∧
      (dischargeContact lengthFast w A contact B).location =
        (w B).location + MCVector3dF.ofRat
          (-(nx * contact.interpenetrationDepth) * massScaling (w B).invMass (w A).invMass)
          (-(ny * contact.interpenetrationDepth) * massScaling (w B).invMass (w A).invMass)
          (-(nz * contact.interpenetrationDepth) * massScaling (w B).invMass (w A).invMass) ∧
      ((w A).invMass ≤ (w B).invMass →
        Real.sqrt (lengthSquared
          (nx * contact.interpenetrationDepth * massScaling (w A).invMass (w B).invMass)
          (ny * contact.interpenetrationDepth * massScaling (w A).invMass (w B).invMass)
          (nz * contact.interpenetrationDepth * massScaling (w A).invMass (w B).invMass) : ℚ)
        ≤ Real.sqrt (lengthSquared
          (-(nx * contact.interpenetrationDepth) * massScaling (w B).invMass (w A).invMass)
          (-(ny * contact.interpenetrationDepth) * massScaling (w B).invMass (w A).invMass)
          (-(nz * contact.interpenetrationDepth) * massScaling (w B).invMass (w A).invMass)
            : ℚ)) ∧
      ((w B).invMass ≤ (w A).invMass →
        Real.sqrt (lengthSquared
          (-(nx * contact.interpenetrationDepth) * massScaling (w B).invMass (w A).invMass)
          (-(ny * contact.interpenetrationDepth) * massScaling (w B).invMass (w A).invMass)
          (-(nz * contact.interpenetrationDepth) * massScaling (w B).invMass (w A).invMass)
            : ℚ)
        ≤ Real.sqrt (lengthSquared
          (nx * contact.interpenetrationDepth * massScaling (w A).invMass (w B).invMass)
          (ny * contact.interpenetrationDepth * massScaling (w A).invMass (w B).invMass)
          (nz * contact.interpenetrationDepth * massScaling (w A).invMass (w B).invMass)
            : ℚ))) := by
  have hne0 : (w A).invMass + (w B).invMass ≠ 0 := ne_of_gt hsum
  have hsum2 : 0 < (w B).invMass + (w A).invMass := by rw [add_comm]; exact hsum
  have hne02 : (w B).invMass + (w A).invMass ≠ 0 := ne_of_gt hsum2
  refine ⟨?_, ?_⟩
  · intro contact displacement linearImpulse restitution
    rw [processContact_apply]
    simp [hmoving, MCFloat.fin_div_of_ne _ hne0]
  · intro contact nx ny nz hAB hmovingB hobj hnormal
    subst hobj
    refine ⟨?_, ?_, ?_, ?_⟩
    · rw [dischargeContact_location_self _ _ _ _ hAB hmoving, hnormal,
        MCFloat.fin_div_of_ne _ hne0]
      simp [massScaling]
    · rw [dischargeContact_location_other _ _ _ _ hAB hmovingB, hnormal,
        MCFloat.fin_div_of_ne _ hne02]
      simp [massScaling]
    · intro hle
      apply Real.sqrt_le_sqrt
      have h := massScaling_le hA hsum hle
      have := lengthSquared_scaled_le (nx * contact.interpenetrationDepth)
        (ny * contact.interpenetrationDepth) (nz * contact.interpenetrationDepth) h.1 h.2
      exact_mod_cast this
    · intro hle
      apply Real.sqrt_le_sqrt
      have h := massScaling_le hB hsum2 hle
      have := lengthSquared_scaled_le (-(nx * contact.interpenetrationDepth))
        (-(ny * contact.interpenetrationDepth)) (-(nz * contact.interpenetrationDepth))
        h.1 h.2
      simp only [neg_neg] at this
      exact_mod_cast this

/-- Exact arithmetic only, at a heavy and a light body: object 1 (inverse mass 1/30)
discharges a contact of normal `(1, 0, 0)` and depth 1/5 against object 2 (inverse mass
1/10); object 1 moves by `(1/20, 0, 0)` and object 2 by `(-3/20, 0, 0)`. -/
theorem displacement_scaled_by_inverse_mass_witness :
    (heavyLightWorld 1).location = MCVector3dF.ofRat 0 0 0 ∧
    (heavyLightWorld 2).location = MCVector3dF.ofRat (9/5) 0 0 ∧
    (dischargeContact lengthStandIn heavyLightWorld 1 scenarioContact 1).location
      = MCVector3dF.ofRat (1/20) 0 0 ∧
    (dischargeContact lengthStandIn heavyLightWorld 1 scenarioContact 2).location
      = MCVector3dF.ofRat (9/5 - 3/20) 0 0 := by
  have h := (displacement_scaled_by_inverse_mass lengthStandIn heavyLightWorld 1 2
    (by simp [heavyLightWorld, heavyBody])
    (by simp [heavyLightWorld, heavyBody])
    (by simp [heavyLightWorld, scenarioBodyB])
    (by simp [heavyLightWorld, heavyBody, scenarioBodyB]; norm_num)).2
    scenarioContact 1 0 0 (by decide) (by simp [heavyLightWorld, scenarioBodyB]) rfl rfl
  refine ⟨by simp [heavyLightWorld, heavyBody], by simp [heavyLightWorld, scenarioBodyB],
    ?_, ?_⟩
  · rw [h.1]
    simp [heavyLightWorld, heavyBody, scenarioBodyB, scenarioContact, massScaling,
      MCVector3dF.ofRat_inj]
    norm_num
  · rw [h.2.1]
    simp [heavyLightWorld, heavyBody, scenarioBodyB, scenarioContact, massScaling,
      MCVector3dF.ofRat_inj]
    norm_num

/-! ## Linear impulses on the two objects of a contact -/

/-- The velocity of `object` after `dischargeContact` on two different objects. -/
theorem dischargeContact_velocity_self (lengthFast : MCVector3dF → MCFloat) (w : World)
    (object : ObjId) (contact : MCContact) (hne : object ≠ contact.object)
    (hmoving : (w object).stationary = false) :
    (dischargeContact lengthFast w object contact object).velocity =
      (w object).velocity +
        contact.contactNormal * contact.contactNormal.dot
            ((w contact.object).velocity - (w object).velocity).toVector2d.toVector3d *
          MCFloat.fin (1 + min (w object).restitution (w contact.object).restitution) *
          (MCFloat.fin (w object).invMass /
            MCFloat.fin ((w object).invMass + (w contact.object).invMass)) *
          MCFloat.fin 1 := by
  unfold dischargeContact
  rw [Function.update_noteq hne, processContact_other _ _ _ _ _ _ _ _ _ hne,
    processContact_apply]
  simp [hmoving]

/-- The velocity of the other object after `dischargeContact` on two different objects. -/
theorem dischargeContact_velocity_other (lengthFast : MCVector3dF → MCFloat) (w : World)
    (object : ObjId) (contact : MCContact) (hne : object ≠ contact.object)
    (hmoving : (w contact.object).stationary = false) :
    (dischargeContact lengthFast w object contact contact.object).velocity =
      (w contact.object).velocity +
        -(contact.contactNormal * contact.contactNormal.dot
            ((w contact.object).velocity - (w object).velocity).toVector2d.toVector3d) *
          MCFloat.fin (1 + min (w object).restitution (w contact.object).restitution) *
          (MCFloat.fin (w contact.object).invMass /
            MCFloat.fin ((w contact.object).invMass + (w object).invMass)) *
          MCFloat.fin 1 := by
  have hne2 : contact.object ≠ object := fun h => hne h.symm
  unfold dischargeContact
  rw [Function.update_same]
  simp only [MCObject.deleteContactsWith]
  rw [processContact_apply]
  simp only [true_and]
  rw [processContact_other _ _ _ _ _ _ _ _ _ hne2]
  simp [hmoving]

/-- The velocities after `generateImpulsesFromDeepestContacts` on an object with a single
bucket are those after `dischargeContact` of the deepest contact of the bucket. -/
theorem generateImpulses_single_bucket_velocity (lengthFast : MCVector3dF → MCFloat)
    (w : World) (object key : ObjId) (contacts : List MCContact) (contact : MCContact)
    (hbuckets : (w object).contacts = [(key, contacts)])
    (hdeepest : getDeepestInterpenetration contacts = some contact) (x : ObjId) :
    (generateImpulsesFromDeepestContacts lengthFast w object x).velocity =
      (dischargeContact lengthFast w object contact x).velocity := by
  have h := congrArg MCObject.velocity
    (generateImpulses_deleteContacts lengthFast w object x)
  simp only [MCObject.deleteContacts] at h
  rw [h, hbuckets]
  simp [resolveBucket, hdeepest]

/-- Exact arithmetic only (in single precision the two mass scalings and the two sums are
rounded separately and the total momentum changes by the rounding errors): two different
objects `A` and `B` that are not stationary, with positive masses,
`invMass = 1 / mass` and finite velocities; `A` discharges a contact with a finite normal
against `B`.  The total linear momentum `mass(A) * velocity(A) + mass(B) * velocity(B)`
after the two applications of `processContact` equals the total linear momentum before,
and so it does after `generateImpulsesFromDeepestContacts` on `A` when the contact is the
deepest of the single bucket of `A`. -/
theorem discharge_conserves_momentum (lengthFast : MCVector3dF → MCFloat) (w : World)
    (A : ObjId) (contact : MCContact) (vax vay vaz vbx vby vbz nx ny nz : ℚ)
    (hne : A ≠ contact.object)
    (hmovingA : (w A).stationary = false)
    (hmovingB : (w contact.object).stationary = false)
    (hmassA : 0 < (w A).mass) (hmassB : 0 < (w contact.object).mass)
    (hinvA : (w A).invMass = 1 / (w A).mass)
    (hinvB : (w contact.object).invMass = 1 / (w contact.object).mass)
    (hvA : (w A).velocity = MCVector3dF.ofRat vax vay vaz)
    (hvB : (w contact.object).velocity = MCVector3dF.ofRat vbx vby vbz)
    (hn : contact.contactNormal = MCVector3dF.ofRat nx ny nz) :
    (dischargeContact lengthFast w A contact A).velocity * MCFloat.fin (w A).mass +
        (dischargeContact lengthFast w A contact contact.object).velocity *
          MCFloat.fin (w contact.object).mass
      = (w A).velocity * MCFloat.fin (w A).mass +
        (w contact.object).velocity * MCFloat.fin (w contact.object).mass ∧
    ∀ contacts : List MCContact, (w A).contacts = [(contact.object, contacts)] →
      getDeepestInterpenetration contacts = some contact →
      (generateImpulsesFromDeepestContacts lengthFast w A A).velocity *
          MCFloat.fin (w A).mass +
        (generateImpulsesFromDeepestContacts lengthFast w A contact.object).velocity *
          MCFloat.fin (w contact.object).mass
      = (w A).velocity * MCFloat.fin (w A).mass +
        (w contact.object).velocity * MCFloat.fin (w contact.object).mass := by
  have hposA : 0 < (w A).invMass := by rw [hinvA]; exact one_div_pos.mpr hmassA
  have hposB : 0 < (w contact.object).invMass := by rw [hinvB]; exact one_div_pos.mpr hmassB
  have hsum : (w A).invMass + (w contact.object).invMass ≠ 0 :=
    ne_of_gt (add_pos hposA hposB)
  have hsum2 : (w contact.object).invMass + (w A).invMass ≠ 0 := by
    rw [add_comm]; exact hsum
  have key : (dischargeContact lengthFast w A contact A).velocity * MCFloat.fin (w A).mass +
        (dischargeContact lengthFast w A contact contact.object).velocity *
          MCFloat.fin (w contact.object).mass
      = (w A).velocity * MCFloat.fin (w A).mass +
        (w contact.object).velocity * MCFloat.fin (w contact.object).mass := by
    rw [dischargeContact_velocity_self _ _ _ _ hne hmovingA,
      dischargeContact_velocity_other _ _ _ _ hne hmovingB, hvA, hvB, hn,
      MCFloat.fin_div_of_ne _ hsum, MCFloat.fin_div_of_ne _ hsum2]
    have hmA : (w A).mass ≠ 0 := ne_of_gt hmassA
    have hmB : (w contact.object).mass ≠ 0 := ne_of_gt hmassB
    have hden : 1 / (w A).mass + 1 / (w contact.object).mass ≠ 0 := by
      rw [← hinvA, ← hinvB]; exact hsum
    have hden2 : 1 / (w contact.object).mass + 1 / (w A).mass ≠ 0 := by
      rw [add_comm]; exact hden
    have hden3 : (w contact.object).mass + (w A).mass ≠ 0 :=
      ne_of_gt (add_pos hmassB hmassA)
    have hden4 : (w A).mass + (w contact.object).mass ≠ 0 :=
      ne_of_gt (add_pos hmassA hmassB)
    simp only [MCVector3dF.dot, MCVector3dF.toVector2d, MCVector2dF.toVector3d,
      MCVector3dF.ofRat_sub_ofRat, MCVector3dF.ofRat_i, MCVector3dF.ofRat_j,
      MCVector3dF.ofRat_k, MCFloat.fin_mul_fin, MCFloat.fin_add_fin,
      MCVector3dF.ofRat_smul_fin, MCVector3dF.neg_ofRat, MCVector3dF.ofRat_add_ofRat,
      MCVector3dF.ofRat_inj, hinvA, hinvB]
    refine ⟨?_, ?_, ?_⟩ <;> field_simp <;> ring
  refine ⟨key, ?_⟩
  intro contacts hbuckets hdeepest
  rw [generateImpulses_single_bucket_velocity _ _ _ _ _ _ hbuckets hdeepest,
    generateImpulses_single_bucket_velocity _ _ _ _ _ _ hbuckets hdeepest]
  exact key

/-- Exact arithmetic only, at a heavy and a light body: object 1 (mass 30, velocity
`(1, 0, 0)`) discharges a contact of normal `(1, 0, 0)` against object 2 (mass 10,
velocity `(-2, 0, 0)`); the velocities become `(-1/8, 0, 0)` and `(11/8, 0, 0)` and the
total momentum is `(10, 0, 0)` before and after. -/
theorem discharge_conserves_momentum_witness :
    (dischargeContact lengthStandIn heavyLightWorld 1 scenarioContact 1).velocity
      = MCVector3dF.ofRat (-1/8) 0 0 ∧
    (dischargeContact lengthStandIn heavyLightWorld 1 scenarioContact 2).velocity
      = MCVector3dF.ofRat (11/8) 0 0 ∧
    (dischargeContact lengthStandIn heavyLightWorld 1 scenarioContact 1).velocity *
        MCFloat.fin (heavyLightWorld 1).mass +
      (dischargeContact lengthStandIn heavyLightWorld 1 scenarioContact
          scenarioContact.object).velocity *
        MCFloat.fin (heavyLightWorld scenarioContact.object).mass
      = (heavyLightWorld 1).velocity * MCFloat.fin (heavyLightWorld 1).mass +
        (heavyLightWorld scenarioContact.object).velocity *
          MCFloat.fin (heavyLightWorld scenarioContact.object).mass ∧
    (heavyLightWorld 1).velocity * MCFloat.fin (heavyLightWorld 1).mass +
        (heavyLightWorld scenarioContact.object).velocity *
          MCFloat.fin (heavyLightWorld scenarioContact.object).mass
      = MCVector3dF.ofRat 10 0 0 := by
  have h := (discharge_conserves_momentum lengthStandIn heavyLightWorld 1 scenarioContact
    1 0 0 (-2) 0 0 1 0 0 (by decide)
    (by simp [heavyLightWorld, heavyBody])
    (by simp [heavyLightWorld, scenarioBodyB, scenarioContact])
    (by simp [heavyLightWorld, heavyBody])
    (by simp [heavyLightWorld, scenarioBodyB, scenarioContact])
    (by simp [heavyLightWorld, heavyBody])
    (by simp [heavyLightWorld, scenarioBodyB, scenarioContact])
    (by simp [heavyLightWorld, heavyBody])
    (by simp [heavyLightWorld, scenarioBodyB, scenarioContact])
    (by simp [scenarioContact])).1
  refine ⟨?_, ?_, h, ?_⟩
  · simp [dischargeContact, processContact_apply, heavyLightWorld, heavyBody,
      scenarioBodyB, scenarioContact, MCObject.deleteContactsWith, MCVector3dF.dot,
      MCVector3dF.toVector2d, MCVector2dF.toVector3d, MCFloat.fin_div_fin,
      MCVector3dF.ofRat_inj]
    norm_num
  · simp [dischargeContact, processContact_apply, heavyLightWorld, heavyBody,
      scenarioBodyB, scenarioContact, MCObject.deleteContactsWith, MCVector3dF.dot,
      MCVector3dF.toVector2d, MCVector2dF.toVector3d, MCFloat.fin_div_fin,
      MCVector3dF.ofRat_inj]
    norm_num
  · simp [heavyLightWorld, heavyBody, scenarioBodyB, scenarioContact,
      MCVector3dF.ofRat_inj]
    norm_num

/-! ## The end-to-end scenario -/

/-- C9 (what the source does): body `A` (inverse mass 0.1, not stationary, restitution 0.5)
holds a single contact against a different body `B` (inverse mass 0.1, not stationary,
restitution 0.5) with normal `(1, 0, 0)` and depth 0.2, and
`B.velocity - A.velocity = (-2, 0, 0)`.  The restitution is 0.5, the normal speed is -2
and the linear impulse is `(-2, 0, 0)`; `generateImpulsesFromDeepestContacts` on `A`
changes the velocity of `A` by `(-2 * 1.5 * 0.5 * 1, 0, 0)` and that of `B` by
`(2 * 1.5 * 0.5 * 1, 0, 0)`: the factor in the place of the linear balance is one,
whatever the shapes of the bodies and the contact point are. -/
theorem scenario_velocities (lengthFast : MCVector3dF → MCFloat) (w : World)
    (A B : ObjId) (contact : MCContact) (vax vay vaz : ℚ) (hne : A ≠ B)
    (hbuckets : (w A).contacts = [(B, [contact])]) (hobject : contact.object = B)
    (hnormal : contact.contactNormal = MCVector3dF.ofRat 1 0 0)
    (hdepth : contact.interpenetrationDepth = 1/5)
    (hinvA : (w A).invMass = 1/10) (hinvB : (w B).invMass = 1/10)
    (hmovingA : (w A).stationary = false) (hmovingB : (w B).stationary = false)
    (hrestA : (w A).restitution = 1/2) (hrestB : (w B).restitution = 1/2)
    (hvA : (w A).velocity = MCVector3dF.ofRat vax vay vaz)
    (hvB : (w B).velocity = MCVector3dF.ofRat (vax - 2) vay vaz) :
    min (w A).restitution (w B).restitution = 1/2 ∧
    contact.contactNormal.dot ((w B).velocity - (w A).velocity).toVector2d.toVector3d
      = MCFloat.fin (-2) ∧
    contact.contactNormal * contact.contactNormal.dot
        ((w B).velocity - (w A).velocity).toVector2d.toVector3d
      = MCVector3dF.ofRat (-2) 0 0 ∧
    (generateImpulsesFromDeepestContacts lengthFast w A A).velocity
      = (w A).velocity + MCVector3dF.ofRat (-2 * (1 + 1/2) * (1/2) * 1) 0 0 ∧
    (generateImpulsesFromDeepestContacts lengthFast w A B).velocity
      = (w B).velocity + MCVector3dF.ofRat (2 * (1 + 1/2) * (1/2) * 1) 0 0 := by
  subst hobject
  have hdeepest : getDeepestInterpenetration [contact] = some contact := by
    simp [getDeepestInterpenetration, deepestStep, hdepth]
  have hdot : contact.contactNormal.dot
      ((w contact.object).velocity - (w A).velocity).toVector2d.toVector3d
        = MCFloat.fin (-2) := by
    rw [hnormal, hvA, hvB]
    simp [MCVector3dF.dot, MCVector3dF.toVector2d, MCVector2dF.toVector3d]
  refine ⟨by rw [hrestA, hrestB]; simp, hdot, ?_, ?_, ?_⟩
  · rw [hdot, hnormal]
    simp [MCVector3dF.ofRat_inj]
  · rw [generateImpulses_single_bucket_velocity _ _ _ _ _ _ hbuckets hdeepest,
      dischargeContact_velocity_self _ _ _ _ hne hmovingA, hdot, hnormal, hvA, hinvA,
      hinvB, hrestA, hrestB]
    simp [MCFloat.fin_div_fin, MCVector3dF.ofRat_inj]
    norm_num
  · rw [generateImpulses_single_bucket_velocity _ _ _ _ _ _ hbuckets hdeepest,
      dischargeContact_velocity_other _ _ _ _ hne hmovingB, hdot, hnormal, hvB, hinvA,
      hinvB, hrestA, hrestB]
    simp [MCFloat.fin_div_fin, MCVector3dF.ofRat_inj]
    norm_num

/-- C9 at the scenario with the contact point on the rim of body A (radius 1, arm of
length 1): the specification has the linear balance 1/2 and a velocity change of A by
`(-3/4, 0, 0)`; the source changes the velocity of A from `(0, 0, 0)` to `(-3/2, 0, 0)`
and that of B from `(-2, 0, 0)` to `(-1/2, 0, 0)`. -/
theorem scenario_velocities_witness :
    specLinearBalance 1 1 = 1/2 ∧
    (generateImpulsesFromDeepestContacts lengthStandIn scenarioWorld 1 1).velocity
      = MCVector3dF.ofRat (-3/2) 0 0 ∧
    (generateImpulsesFromDeepestContacts lengthStandIn scenarioWorld 1 2).velocity
      = MCVector3dF.ofRat (-1/2) 0 0 ∧
    (generateImpulsesFromDeepestContacts lengthStandIn scenarioWorld 1 1).velocity
      ≠ (scenarioWorld 1).velocity +
        MCVector3dF.ofRat (-2 * (1 + 1/2) * (1/2) * specLinearBalance 1 1) 0 0 := by
  have h := scenario_velocities lengthStandIn scenarioWorld 1 2 scenarioContact 0 0 0
    (by decide) (by simp [scenarioWorld, scenarioBodyA]) rfl rfl rfl
    (by simp [scenarioWorld, scenarioBodyA]) (by simp [scenarioWorld, scenarioBodyB])
    (by simp [scenarioWorld, scenarioBodyA]) (by simp [scenarioWorld, scenarioBodyB])
    (by simp [scenarioWorld, scenarioBodyA]) (by simp [scenarioWorld, scenarioBodyB])
    (by simp [scenarioWorld, scenarioBodyA]) (by simp [scenarioWorld, scenarioBodyB])
  have hbal : specLinearBalance 1 1 = 1/2 := by
    unfold specLinearBalance
    norm_num
  have hA : (generateImpulsesFromDeepestContacts lengthStandIn scenarioWorld 1 1).velocity
      = MCVector3dF.ofRat (-3/2) 0 0 := by
    rw [h.2.2.2.1]
    simp [scenarioWorld, scenarioBodyA, MCVector3dF.ofRat_inj]
    norm_num
  refine ⟨hbal, hA, ?_, ?_⟩
  · rw [h.2.2.2.2]
    simp [scenarioWorld, scenarioBodyB, MCVector3dF.ofRat_inj]
    norm_num
  · rw [hA, hbal]
    simp [scenarioWorld, scenarioBodyA, MCVector3dF.ofRat_inj]
    norm_num

/-! ## The contact hashes -/

/-- The contact hashes after `dischargeContact`: the other object loses its buckets
against `object`, every other hash is as before. -/
theorem dischargeContact_contacts (lengthFast : MCVector3dF → MCFloat) (w : World)
    (object : ObjId) (contact : MCContact) (x : ObjId) :
    (dischargeContact lengthFast w object contact x).contacts =
      if x = contact.object then (w x).contacts.filter fun bucket => bucket.1 != object
      else (w x).contacts := by
  unfold dischargeContact
  by_cases hx : x = contact.object
  · subst hx
    rw [Function.update_same]
    simp [MCObject.deleteContactsWith, processContact_contacts]
  · rw [Function.update_noteq hx]
    simp [hx, processContact_contacts]

/-- No step of the loop adds a bucket to any contact hash. -/
theorem resolveBucket_contacts_mem (lengthFast : MCVector3dF → MCFloat) (object : ObjId)
    (w : World) (bucket : ObjId × List MCContact) (x : ObjId) (b : ObjId × List MCContact)
    (hb : b ∈ (resolveBucket lengthFast object w bucket x).contacts) :
    b ∈ (w x).contacts := by
  cases hbest : getDeepestInterpenetration bucket.2 with
  | none =>
    simp only [resolveBucket, hbest] at hb
    exact hb
  | some best =>
    simp only [resolveBucket, hbest] at hb
    rw [dischargeContact_contacts] at hb
    split_ifs at hb
    · exact (List.mem_filter.mp hb).1
    · exact hb

/-- The loop adds no bucket to any contact hash. -/
theorem foldl_resolveBucket_contacts_mem (lengthFast : MCVector3dF → MCFloat)
    (object : ObjId) (buckets : List (ObjId × List MCContact)) (w : World) (x : ObjId)
    (b : ObjId × List MCContact)
    (hb : b ∈ (buckets.foldl (resolveBucket lengthFast object) w x).contacts) :
    b ∈ (w x).contacts := by
  induction buckets generalizing w with
  | nil => exact hb
  | cons bucket rest ih =>
    rw [List.foldl_cons] at hb
    exact resolveBucket_contacts_mem lengthFast object w bucket x b (ih _ hb)

/-- A bucket with a contact of positive depth has a deepest contact. -/
theorem getDeepestInterpenetration_of_pos (contacts : List MCContact)
    (hpos : ∃ c ∈ contacts, 0 < c.interpenetrationDepth) :
    ∃ best, getDeepestInterpenetration contacts = some best ∧ best ∈ contacts := by
  unfold getDeepestInterpenetration
  rcases foldl_deepestStep contacts 0 none with
    ⟨_, hle⟩ | ⟨pre, best, post, hsplit, heq, _, _, _⟩
  · obtain ⟨c, hc, hcpos⟩ := hpos
    exact absurd (hle c hc) (not_le.mpr hcpos)
  · exact ⟨best, by rw [heq], by simp [hsplit]⟩

/-- The contact hash of an object other than `object` after
`generateImpulsesFromDeepestContacts` is the one after the loop. -/
theorem generateImpulses_apply_other (lengthFast : MCVector3dF → MCFloat) (w : World)
    (object x : ObjId) (hx : x ≠ object) :
    generateImpulsesFromDeepestContacts lengthFast w object x =
      (w object).contacts.foldl (resolveBucket lengthFast object) w x := by
  unfold generateImpulsesFromDeepestContacts
  rw [Function.update_noteq hx]

/-- After `generateImpulsesFromDeepestContacts` on `A`, an object `B` against which `A`
held a bucket with a contact of positive depth holds no bucket keyed by `A`. -/
theorem generateImpulses_removes_mirror_bucket (lengthFast : MCVector3dF → MCFloat)
    (w : World) (A B : ObjId) (contacts : List MCContact) (hne : A ≠ B)
    (hbucket : (B, contacts) ∈ (w A).contacts)
    (hobject : ∀ c ∈ contacts, c.object = B)
    (hpos : ∃ c ∈ contacts, 0 < c.interpenetrationDepth) :
    ∀ bucket ∈ (generateImpulsesFromDeepestContacts lengthFast w A B).contacts,
      bucket.1 ≠ A := by
  intro bucket hmem
  rw [generateImpulses_apply_other _ _ _ _ (fun h => hne h.symm)] at hmem
  obtain ⟨pre, post, hsplit⟩ := List.append_of_mem hbucket
  rw [hsplit, List.foldl_append, List.foldl_cons] at hmem
  have hmid := foldl_resolveBucket_contacts_mem lengthFast A post _ B bucket hmem
  obtain ⟨best, hbest, hbestmem⟩ := getDeepestInterpenetration_of_pos contacts hpos
  simp only [resolveBucket, hbest] at hmid
  rw [dischargeContact_contacts, hobject best hbestmem] at hmid
  simp only [if_true] at hmid
  have := (List.mem_filter.mp hmid).2
  simpa using this

/-! ## Removal of the handled pair -/

/-- C5: `A` holds a bucket against another object `B` (its contacts refer to `B`) with at
least one contact of positive depth.  After `generateImpulsesFromDeepestContacts` on `A`,
`B` holds no bucket keyed by `A`.  Hence a following run on `B` does not write `A` when the
buckets of `B` hold contacts with the object of their key, and changes no location,
velocity or angular velocity at all when the buckets of `B` were all held against `A`. -/
theorem pair_removed_after_resolve (lengthFast : MCVector3dF → MCFloat) (w : World)
    (A B : ObjId) (contacts : List MCContact) (hne : A ≠ B)
    (hbucket : (B, contacts) ∈ (w A).contacts)
    (hobject : ∀ c ∈ contacts, c.object = B)
    (hpos : ∃ c ∈ contacts, 0 < c.interpenetrationDepth) :
    (∀ bucket ∈ (generateImpulsesFromDeepestContacts lengthFast w A B).contacts,
      bucket.1 ≠ A) ∧
    ((∀ bucket ∈ (w B).contacts, ∀ c ∈ bucket.2, c.object = bucket.1) →
      generateImpulsesFromDeepestContacts lengthFast
          (generateImpulsesFromDeepestContacts lengthFast w A) B A
        = generateImpulsesFromDeepestContacts lengthFast w A A) ∧
    ((∀ bucket ∈ (w B).contacts, bucket.1 = A) →
      ∀ x, (generateImpulsesFromDeepestContacts lengthFast
          (generateImpulsesFromDeepestContacts lengthFast w A) B x).kinematics
        = (generateImpulsesFromDeepestContacts lengthFast w A x).kinematics) := by
  have hremoved :=
    generateImpulses_removes_mirror_bucket lengthFast w A B contacts hne hbucket hobject hpos
  have hsub : ∀ bucket ∈ (generateImpulsesFromDeepestContacts lengthFast w A B).contacts,
      bucket ∈ (w B).contacts := by
    intro bucket hmem
    rw [generateImpulses_apply_other _ _ _ _ (fun h => hne h.symm)] at hmem
    exact foldl_resolveBucket_contacts_mem lengthFast A _ w B bucket hmem
  refine ⟨hremoved, ?_, ?_⟩
  · intro hwf
    rw [generateImpulses_apply_other _ _ _ _ hne]
    apply foldl_resolveBucket_other _ _ _ _ _ hne
    intro bucket hmem c hc hcA
    exact hremoved bucket hmem ((hwf bucket (hsub bucket hmem) c hc).symm.trans hcA)
  · intro hall x
    have hnil : (generateImpulsesFromDeepestContacts lengthFast w A B).contacts = [] := by
      apply List.eq_nil_iff_forall_not_mem.mpr
      intro bucket hmem
      exact hremoved bucket hmem (hall bucket (hsub bucket hmem))
    apply kinematics_eq_of_deleteContacts_eq
    rw [generateImpulses_deleteContacts, hnil]
    rfl

/-- C5 at the pair of `pairWorld`: object 2 holds a bucket against object 1 before the run
on object 1 and none after it; the following run on object 2 leaves the locations,
velocities and angular velocities of both objects as the first run produced them. -/
theorem pair_removed_after_resolve_witness :
    (pairWorld 2).contacts = [(1, [mirrorContact])] ∧
    (generateImpulsesFromDeepestContacts lengthStandIn pairWorld 1 2).contacts = [] ∧
    (generateImpulsesFromDeepestContacts lengthStandIn
        (generateImpulsesFromDeepestContacts lengthStandIn pairWorld 1) 2 1).kinematics
      = (generateImpulsesFromDeepestContacts lengthStandIn pairWorld 1 1).kinematics ∧
    (generateImpulsesFromDeepestContacts lengthStandIn
        (generateImpulsesFromDeepestContacts lengthStandIn pairWorld 1) 2 2).kinematics
      = (generateImpulsesFromDeepestContacts lengthStandIn pairWorld 1 2).kinematics := by
  have h := pair_removed_after_resolve lengthStandIn pairWorld 1 2 [scenarioContact]
    (by decide) (by simp [pairWorld, scenarioBodyA]) (by simp [scenarioContact])
    ⟨scenarioContact, by simp, by simp [scenarioContact]⟩
  have hB : (pairWorld 2).contacts = [(1, [mirrorContact])] := by
    simp [pairWorld, scenarioBodyB]
  have hall : ∀ bucket ∈ (pairWorld 2).contacts, bucket.1 = 1 := by
    rw [hB]
    simp
  refine ⟨hB, ?_, h.2.2 hall 1, h.2.2 hall 2⟩
  apply List.eq_nil_iff_forall_not_mem.mpr
  intro bucket hmem
  apply h.1 bucket hmem
  apply hall
  rw [generateImpulses_apply_other _ _ _ _ (by decide)] at hmem
  exact foldl_resolveBucket_contacts_mem lengthStandIn 1 _ pairWorld 2 bucket hmem

/-! ## The kinematic state does not depend on the contact hashes -/

/-- Two worlds are equal when they agree apart from the contact hashes and on the contact
hashes. -/
theorem world_ext {w1 w2 : World} (hstate : withoutContacts w1 = withoutContacts w2)
    (hcontacts : ∀ x, (w1 x).contacts = (w2 x).contacts) : w1 = w2 := by
  funext x
  have h := congrFun hstate x
  have hc := hcontacts x
  simp only [withoutContacts, MCObject.deleteContacts] at h
  cases h1 : w1 x
  cases h2 : w2 x
  rw [h1, h2] at h
  rw [h1, h2] at hc
  simp only [MCObject.mk.injEq] at h ⊢
  simp only at hc
  exact ⟨h.1, h.2.1, h.2.2.1, h.2.2.2.1, h.2.2.2.2.1, h.2.2.2.2.2.1, h.2.2.2.2.2.2.1,
    h.2.2.2.2.2.2.2.1, h.2.2.2.2.2.2.2.2.1, h.2.2.2.2.2.2.2.2.2.1, hc⟩

@[simp] theorem withoutContacts_apply (w : World) (x : ObjId) :
    withoutContacts w x = (w x).deleteContacts := rfl

@[simp] theorem deleteContacts_mass (o : MCObject) :
    o.deleteContacts.mass = o.mass := rfl

@[simp] theorem deleteContacts_invMass (o : MCObject) :
    o.deleteContacts.invMass = o.invMass := rfl

@[simp] theorem deleteContacts_momentOfInertia (o : MCObject) :
    o.deleteContacts.momentOfInertia = o.momentOfInertia := rfl

@[simp] theorem deleteContacts_invMomentOfInertia (o : MCObject) :
    o.deleteContacts.invMomentOfInertia = o.invMomentOfInertia := rfl

@[simp] theorem deleteContacts_restitution (o : MCObject) :
    o.deleteContacts.restitution = o.restitution := rfl

@[simp] theorem deleteContacts_stationary (o : MCObject) :
    o.deleteContacts.stationary = o.stationary := rfl

@[simp] theorem deleteContacts_shape (o : MCObject) :
    o.deleteContacts.shape = o.shape := rfl

@[simp] theorem deleteContacts_location (o : MCObject) :
    o.deleteContacts.location = o.location := rfl

@[simp] theorem deleteContacts_velocity (o : MCObject) :
    o.deleteContacts.velocity = o.velocity := rfl

@[simp] theorem deleteContacts_angularVelocity (o : MCObject) :
    o.deleteContacts.angularVelocity = o.angularVelocity := rfl

@[simp] theorem deleteContacts_contacts (o : MCObject) :
    o.deleteContacts.contacts = [] := rfl

/-- Clearing the contact hashes commutes with `processContact`. -/
theorem withoutContacts_processContact (lengthFast : MCVector3dF → MCFloat) (w : World)
    (pa pb : ObjId) (contact : MCContact) (displacement linearImpulse : MCVector3dF)
    (restitution : ℚ) :
    withoutContacts
        (processContact lengthFast w pa pb contact displacement linearImpulse restitution)
      = processContact lengthFast (withoutContacts w) pa pb contact displacement
          linearImpulse restitution := by
  funext x
  simp only [withoutContacts_apply]
  rw [processContact_apply, processContact_apply]
  simp only [withoutContacts_apply, deleteContacts_stationary]
  split_ifs <;> simp [MCObject.deleteContacts]

/-- `processContact` reads the contact point of the contact only. -/
theorem processContact_contact_irrelevant (lengthFast : MCVector3dF → MCFloat) (w : World)
    (pa pb : ObjId) (c1 c2 : MCContact) (displacement linearImpulse : MCVector3dF)
    (restitution : ℚ) (h : c1.contactPoint = c2.contactPoint) :
    processContact lengthFast w pa pb c1 displacement linearImpulse restitution
      = processContact lengthFast w pa pb c2 displacement linearImpulse restitution := by
  unfold processContact
  rw [h]

/-- The applications of `processContact` to two different objects commute: each reads its
own state and parameters of the other that no application writes. -/
theorem processContact_comm (lengthFast : MCVector3dF → MCFloat) (w : World)
    (A B : ObjId) (hne : A ≠ B) (c1 c2 : MCContact) (d1 i1 d2 i2 : MCVector3dF)
    (r1 r2 : ℚ) :
    processContact lengthFast (processContact lengthFast w A B c1 d1 i1 r1) B A c2 d2 i2 r2
      = processContact lengthFast (processContact lengthFast w B A c2 d2 i2 r2)
          A B c1 d1 i1 r1 := by
  have hne2 : B ≠ A := fun h => hne h.symm
  funext x
  by_cases hxA : x = A
  · subst hxA
    have e : processContact lengthFast w B x c2 d2 i2 r2 x = w x :=
      processContact_other _ _ _ _ _ _ _ _ _ hne
    rw [processContact_other _ _ _ _ _ _ _ _ _ hne,
      processContact_apply _ (processContact lengthFast w B x c2 d2 i2 r2)]
    simp only [e, processContact_stationary, processContact_invMass,
      processContact_invMomentOfInertia]
    rw [processContact_apply]
    simp
  · by_cases hxB : x = B
    · subst hxB
      have e : processContact lengthFast w A x c1 d1 i1 r1 x = w x :=
        processContact_other _ _ _ _ _ _ _ _ _ hxA
      rw [processContact_other _ _ _ _ _ _ _ _ _ hxA,
        processContact_apply _ (processContact lengthFast w A x c1 d1 i1 r1)]
      simp only [e, processContact_stationary, processContact_invMass,
        processContact_invMomentOfInertia]
      rw [processContact_apply]
      simp
    · rw [processContact_other _ _ _ _ _ _ _ _ _ hxB,
        processContact_other _ _ _ _ _ _ _ _ _ hxA,
        processContact_other _ _ _ _ _ _ _ _ _ hxA,
        processContact_other _ _ _ _ _ _ _ _ _ hxB]

/-- Clearing the contact hashes commutes with `dischargeContact`. -/
theorem withoutContacts_dischargeContact (lengthFast : MCVector3dF → MCFloat) (w : World)
    (object : ObjId) (contact : MCContact) :
    withoutContacts (dischargeContact lengthFast w object contact)
      = dischargeContact lengthFast (withoutContacts w) object contact := by
  unfold dischargeContact
  simp only [withoutContacts_apply, deleteContacts_velocity, deleteContacts_restitution]
  rw [← withoutContacts_processContact, ← withoutContacts_processContact]
  funext x
  by_cases hx : x = contact.object
  · subst hx
    simp [MCObject.deleteContactsWith, MCObject.deleteContacts]
  · simp [Function.update_noteq hx]

/-- Clearing the contact hashes commutes with the loop of
`generateImpulsesFromDeepestContacts`. -/
theorem withoutContacts_foldl_resolveBucket (lengthFast : MCVector3dF → MCFloat)
    (object : ObjId) (buckets : List (ObjId × List MCContact)) (w : World) :
    withoutContacts (buckets.foldl (resolveBucket lengthFast object) w)
      = buckets.foldl (resolveBucket lengthFast object) (withoutContacts w) := by
  induction buckets generalizing w with
  | nil => rfl
  | cons bucket rest ih =>
    rw [List.foldl_cons, List.foldl_cons, ih]
    congr 1
    cases hbest : getDeepestInterpenetration bucket.2 with
    | none => simp [resolveBucket, hbest]
    | some best =>
      simp only [resolveBucket, hbest]
      exact withoutContacts_dischargeContact lengthFast w object best

/-- Apart from the contact hashes, `generateImpulsesFromDeepestContacts` is its loop run on
the world without contact hashes. -/
theorem withoutContacts_generateImpulses (lengthFast : MCVector3dF → MCFloat) (w : World)
    (object : ObjId) :
    withoutContacts (generateImpulsesFromDeepestContacts lengthFast w object)
      = (w object).contacts.foldl (resolveBucket lengthFast object) (withoutContacts w) := by
  rw [← withoutContacts_foldl_resolveBucket]
  funext x
  exact generateImpulses_deleteContacts lengthFast w object x

/-- No run of `generateImpulsesFromDeepestContacts` adds a bucket to any contact hash. -/
theorem generateImpulses_contacts_mem (lengthFast : MCVector3dF → MCFloat) (w : World)
    (object x : ObjId) (b : ObjId × List MCContact)
    (hb : b ∈ (generateImpulsesFromDeepestContacts lengthFast w object x).contacts) :
    b ∈ (w x).contacts := by
  by_cases hx : x = object
  · subst hx
    simp [generateImpulsesFromDeepestContacts, MCObject.deleteContacts] at hb
  · rw [generateImpulses_apply_other _ _ _ _ hx] at hb
    exact foldl_resolveBucket_contacts_mem lengthFast object _ w x b hb

/-- An object that is neither `object` nor referred to by a contact of `object` is not
written by `generateImpulsesFromDeepestContacts`. -/
theorem generateImpulses_other (lengthFast : MCVector3dF → MCFloat) (w : World)
    (object x : ObjId) (hx : x ≠ object)
    (hxc : ∀ bucket ∈ (w object).contacts, ∀ c ∈ bucket.2, c.object ≠ x) :
    generateImpulsesFromDeepestContacts lengthFast w object x = w x := by
  rw [generateImpulses_apply_other _ _ _ _ hx]
  exact foldl_resolveBucket_other lengthFast object _ w x hx hxc

/-! ## Mirrored contacts -/

theorem MCFloat.neg_mul_eq_neg (a s : MCFloat) : (-a) * s = -(a * s) := by
  cases a <;> cases s <;> simp

theorem MCFloat.neg_mul_sub_eq (n a b : MCFloat) : (-n) * (a - b) = n * (b - a) := by
  cases n <;> cases a <;> cases b <;> simp
  ring

theorem MCVector3dF.vec_neg_smul (n : MCVector3dF) (s : MCFloat) : (-n) * s = -(n * s) := by
  ext <;> simp [MCFloat.neg_mul_eq_neg]

/-- The normal speed of the mirrored contact, seen from the other object, is the same. -/
theorem MCVector3dF.neg_dot_swap (n a b : MCVector3dF) :
    (-n).dot (a - b).toVector2d.toVector3d = n.dot (b - a).toVector2d.toVector3d := by
  simp only [MCVector3dF.dot, MCVector3dF.toVector2d, MCVector2dF.toVector3d,
    MCVector3dF.neg_i, MCVector3dF.neg_j, MCVector3dF.neg_k, MCVector3dF.sub_i,
    MCVector3dF.sub_j, MCFloat.neg_mul_sub_eq]
  congr 1
  cases n.k <;> simp

/-- Apart from the contact hashes, `dischargeContact` is the two applications of
`processContact`. -/
theorem withoutContacts_dischargeContact_eq (lengthFast : MCVector3dF → MCFloat)
    (w : World) (object : ObjId) (contact : MCContact) :
    withoutContacts (dischargeContact lengthFast w object contact) =
      withoutContacts
        (processContact lengthFast
          (processContact lengthFast w object contact.object contact
            (contact.contactNormal * MCFloat.fin contact.interpenetrationDepth)
            (contact.contactNormal * contact.contactNormal.dot
              ((w contact.object).velocity - (w object).velocity).toVector2d.toVector3d)
            (min (w object).restitution (w contact.object).restitution))
          contact.object object contact
          (-(contact.contactNormal * MCFloat.fin contact.interpenetrationDepth))
          (-(contact.contactNormal * contact.contactNormal.dot
              ((w contact.object).velocity - (w object).velocity).toVector2d.toVector3d))
          (min (w object).restitution (w contact.object).restitution)) := by
  unfold dischargeContact
  funext x
  by_cases hx : x = contact.object
  · subst hx
    simp [MCObject.deleteContactsWith, MCObject.deleteContacts]
  · simp [Function.update_noteq hx]

/-- Discharging a contact from the side of `A` and discharging its mirror image from the
side of `B` produce the same parameters, locations, velocities and angular velocities. -/
theorem dischargeContact_mirror (lengthFast : MCVector3dF → MCFloat) (w : World)
    (A B : ObjId) (cA cB : MCContact) (hne : A ≠ B) (hA : cA.object = B)
    (hB : cB.object = A) (hmirror : cA.mirrors cB) :
    withoutContacts (dischargeContact lengthFast w A cA)
      = withoutContacts (dischargeContact lengthFast w B cB) := by
  obtain ⟨hpoint, hdepth, hnormal⟩ := hmirror
  rw [withoutContacts_dischargeContact_eq, withoutContacts_dischargeContact_eq, hA, hB,
    hnormal, hdepth, MCVector3dF.vec_neg_smul, MCVector3dF.vec_neg_smul,
    MCVector3dF.neg_dot_swap, MCVector3dF.vec_neg_neg, MCVector3dF.vec_neg_neg,
    min_comm (w B).restitution (w A).restitution,
    processContact_contact_irrelevant lengthFast w B A cB cA _ _ _ hpoint,
    processContact_contact_irrelevant lengthFast _ A B cB cA _ _ _ hpoint,
    processContact_comm lengthFast w A B hne]

/-! ## Order of the two runs on a pair -/

/-- The contact hash of `p` after the run on an object `o` whose single bucket is held
against `p`: the buckets against `o` are removed when the bucket of `o` has a deepest
contact, and nothing is removed otherwise. -/
theorem generateImpulses_single_bucket_contacts (lengthFast : MCVector3dF → MCFloat)
    (w : World) (o p : ObjId) (cs : List MCContact) (hne : o ≠ p)
    (hbuckets : (w o).contacts = [(p, cs)]) (hobject : ∀ c ∈ cs, c.object = p) :
    (generateImpulsesFromDeepestContacts lengthFast w o p).contacts =
      if (getDeepestInterpenetration cs).isSome then
        (w p).contacts.filter fun bucket => bucket.1 != o
      else (w p).contacts := by
  rw [generateImpulses_apply_other _ _ _ _ (fun h => hne h.symm), hbuckets]
  cases hbest : getDeepestInterpenetration cs with
  | none => simp [resolveBucket, hbest]
  | some best =>
    have hmem := getDeepestInterpenetration_mem cs best hbest
    simp [resolveBucket, hbest, dischargeContact_contacts, hobject best hmem]

/-- The contact hash of `object` is empty after the run on `object`. -/
theorem generateImpulses_contacts_self (lengthFast : MCVector3dF → MCFloat) (w : World)
    (object : ObjId) :
    (generateImpulsesFromDeepestContacts lengthFast w object object).contacts = [] := by
  simp [generateImpulsesFromDeepestContacts]

/-- The contact hash of `o` is still empty after the run on `o` and a run on any
object. -/
theorem generateImpulses_twice_contacts (lengthFast : MCVector3dF → MCFloat) (w : World)
    (o p : ObjId) :
    (generateImpulsesFromDeepestContacts lengthFast
        (generateImpulsesFromDeepestContacts lengthFast w o) p o).contacts = [] := by
  apply List.eq_nil_iff_forall_not_mem.mpr
  intro b hb
  have := generateImpulses_contacts_mem lengthFast _ p o b hb
  rw [generateImpulses_contacts_self] at this
  simp at this

/-- An object outside the pair is written by neither of the two runs on the pair. -/
theorem generateImpulses_twice_other (lengthFast : MCVector3dF → MCFloat) (w : World)
    (o p : ObjId) (cso csp : List MCContact)
    (ho : (w o).contacts = [(p, cso)]) (hp : (w p).contacts = [(o, csp)])
    (hobjo : ∀ c ∈ cso, c.object = p) (hobjp : ∀ c ∈ csp, c.object = o)
    (x : ObjId) (hxo : x ≠ o) (hxp : x ≠ p) :
    generateImpulsesFromDeepestContacts lengthFast
        (generateImpulsesFromDeepestContacts lengthFast w o) p x = w x := by
  have h1 : generateImpulsesFromDeepestContacts lengthFast w o x = w x := by
    apply generateImpulses_other _ _ _ _ hxo
    intro bucket hb c hc
    rw [ho] at hb
    simp only [List.mem_singleton] at hb
    subst hb
    rw [hobjo c hc]
    exact fun h => hxp h.symm
  rw [← h1]
  apply generateImpulses_other _ _ _ _ hxp
  intro bucket hb c hc
  have hb2 := generateImpulses_contacts_mem lengthFast w o p bucket hb
  rw [hp] at hb2
  simp only [List.mem_singleton] at hb2
  subst hb2
  rw [hobjp c hc]
  exact fun h => hxo h.symm

/-- C4 (as amended): two different objects `A` and `B`, each holding one bucket, against
the other one, with contacts that refer to the other one.  When, in case both buckets have
a contact of positive depth, the deepest contact of `A` and the deepest contact of `B`
mirror each other (same point, same depth, opposite normals), the world after the run on
`A` followed by the run on `B` is the world after the run on `B` followed by the run on
`A`. -/
theorem resolve_order_independent (lengthFast : MCVector3dF → MCFloat) (w : World)
    (A B : ObjId) (csA csB : List MCContact) (hne : A ≠ B)
    (hA : (w A).contacts = [(B, csA)]) (hB : (w B).contacts = [(A, csB)])
    (hobjA : ∀ c ∈ csA, c.object = B) (hobjB : ∀ c ∈ csB, c.object = A)
    (hmirror : ∀ cA cB, getDeepestInterpenetration csA = some cA →
      getDeepestInterpenetration csB = some cB → cA.mirrors cB) :
    generateImpulsesFromDeepestContacts lengthFast
        (generateImpulsesFromDeepestContacts lengthFast w A) B
      = generateImpulsesFromDeepestContacts lengthFast
        (generateImpulsesFromDeepestContacts lengthFast w B) A := by
  have hne2 : B ≠ A := fun h => hne h.symm
  apply world_ext
  · rw [withoutContacts_generateImpulses, withoutContacts_generateImpulses,
      withoutContacts_generateImpulses, withoutContacts_generateImpulses,
      generateImpulses_single_bucket_contacts lengthFast w A B csA hne hA hobjA,
      generateImpulses_single_bucket_contacts lengthFast w B A csB hne2 hB hobjB, hA, hB]
    cases hdA : getDeepestInterpenetration csA with
    | none =>
      cases hdB : getDeepestInterpenetration csB with
      | none => simp [resolveBucket, hdA, hdB]
      | some cB => simp [resolveBucket, hdA, hdB]
    | some cA =>
      cases hdB : getDeepestInterpenetration csB with
      | none => simp [resolveBucket, hdA, hdB]
      | some cB =>
        have hm := dischargeContact_mirror lengthFast w A B cA cB hne
          (hobjA cA (getDeepestInterpenetration_mem _ _ hdA))
          (hobjB cB (getDeepestInterpenetration_mem _ _ hdB)) (hmirror cA cB hdA hdB)
        rw [withoutContacts_dischargeContact, withoutContacts_dischargeContact] at hm
        simp [resolveBucket, hdA, hdB, hm]
  · intro x
    by_cases hxA : x = A
    · subst hxA
      rw [generateImpulses_twice_contacts, generateImpulses_contacts_self]
    · by_cases hxB : x = B
      · subst hxB
        rw [generateImpulses_twice_contacts, generateImpulses_contacts_self]
      · rw [generateImpulses_twice_other lengthFast w A B csA csB hA hB hobjA hobjB x hxA hxB,
          generateImpulses_twice_other lengthFast w B A csB csA hB hA hobjB hobjA x hxB hxA]


/-- C4 at the pair of `pairWorld`, whose contacts mirror each other: both orders of the
two runs give the same world, in which object 1 has moved to `(1/10, 0, 0)`. -/
theorem resolve_order_independent_witness :
    generateImpulsesFromDeepestContacts lengthStandIn
        (generateImpulsesFromDeepestContacts lengthStandIn pairWorld 1) 2
      = generateImpulsesFromDeepestContacts lengthStandIn
        (generateImpulsesFromDeepestContacts lengthStandIn pairWorld 2) 1 ∧
    (generateImpulsesFromDeepestContacts lengthStandIn
        (generateImpulsesFromDeepestContacts lengthStandIn pairWorld 2) 1 1).location
      = MCVector3dF.ofRat (1/10) 0 0 := by
  have h := resolve_order_independent lengthStandIn pairWorld 1 2 [scenarioContact]
    [mirrorContact] (by decide) (by simp [pairWorld, scenarioBodyA])
    (by simp [pairWorld, scenarioBodyB]) (by simp [scenarioContact])
    (by simp [mirrorContact])
    (by
      intro cA cB hcA hcB
      simp [getDeepestInterpenetration, deepestStep, scenarioContact] at hcA
      simp [getDeepestInterpenetration, deepestStep, mirrorContact] at hcB
      subst hcA
      subst hcB
      simp [MCContact.mirrors])
  refine ⟨h, ?_⟩
  rw [← h]
  have hstate := congrFun (withoutContacts_generateImpulses lengthStandIn
    (generateImpulsesFromDeepestContacts lengthStandIn pairWorld 1) 2) 1
  have hloc := congrArg MCObject.location hstate
  simp only [withoutContacts_apply, deleteContacts_location] at hloc
  rw [hloc, generateImpulses_single_bucket_contacts lengthStandIn pairWorld 1 2
    [scenarioContact] (by decide) (by simp [pairWorld, scenarioBodyA])
    (by simp [scenarioContact]), withoutContacts_generateImpulses]
  simp [getDeepestInterpenetration, deepestStep, resolveBucket, dischargeContact,
    processContact_apply, pairWorld, scenarioBodyA, scenarioBodyB, scenarioContact,
    mirrorContact, MCObject.deleteContacts, MCObject.deleteContactsWith, MCVector3dF.dot,
    MCVector3dF.toVector2d, MCVector2dF.toVector3d, MCFloat.fin_div_fin,
    MCVector3dF.ofRat_inj]
  norm_num

/-- C4 as stated fails: in `skewWorld` objects 1 and 2 hold one bucket each, against each
other; the run on object 1 followed by the run on object 2 leaves object 1 at
`(1/10, 0, 0)`, the run on object 2 followed by the run on object 1 leaves it at
`(1/4, 0, 0)`. -/
theorem resolve_order_matters :
    (skewWorld 1).contacts = [(2, [scenarioContact])] ∧
    (skewWorld 2).contacts = [(1, [deepContact])] ∧
    (generateImpulsesFromDeepestContacts lengthStandIn
        (generateImpulsesFromDeepestContacts lengthStandIn skewWorld 1) 2 1).location
      = MCVector3dF.ofRat (1/10) 0 0 ∧
    (generateImpulsesFromDeepestContacts lengthStandIn
        (generateImpulsesFromDeepestContacts lengthStandIn skewWorld 2) 1 1).location
      = MCVector3dF.ofRat (1/4) 0 0 ∧
    generateImpulsesFromDeepestContacts lengthStandIn
        (generateImpulsesFromDeepestContacts lengthStandIn skewWorld 1) 2
      ≠ generateImpulsesFromDeepestContacts lengthStandIn
        (generateImpulsesFromDeepestContacts lengthStandIn skewWorld 2) 1 := by
  have h1 : (generateImpulsesFromDeepestContacts lengthStandIn
        (generateImpulsesFromDeepestContacts lengthStandIn skewWorld 1) 2 1).location
      = MCVector3dF.ofRat (1/10) 0 0 := by
    have hstate := congrFun (withoutContacts_generateImpulses lengthStandIn
      (generateImpulsesFromDeepestContacts lengthStandIn skewWorld 1) 2) 1
    have hloc := congrArg MCObject.location hstate
    simp only [withoutContacts_apply, deleteContacts_location] at hloc
    rw [hloc, generateImpulses_single_bucket_contacts lengthStandIn skewWorld 1 2
      [scenarioContact] (by decide) (by simp [skewWorld, scenarioBodyA])
      (by simp [scenarioContact]), withoutContacts_generateImpulses]
    simp [getDeepestInterpenetration, deepestStep, resolveBucket, dischargeContact,
      processContact_apply, skewWorld, scenarioBodyA, scenarioBodyB, scenarioContact,
      deepContact, MCObject.deleteContacts, MCObject.deleteContactsWith, MCVector3dF.dot,
      MCVector3dF.toVector2d, MCVector2dF.toVector3d, MCFloat.fin_div_fin,
      MCVector3dF.ofRat_inj]
    norm_num
  have h2 : (generateImpulsesFromDeepestContacts lengthStandIn
        (generateImpulsesFromDeepestContacts lengthStandIn skewWorld 2) 1 1).location
      = MCVector3dF.ofRat (1/4) 0 0 := by
    have hstate := congrFun (withoutContacts_generateImpulses lengthStandIn
      (generateImpulsesFromDeepestContacts lengthStandIn skewWorld 2) 1) 1
    have hloc := congrArg MCObject.location hstate
    simp only [withoutContacts_apply, deleteContacts_location] at hloc
    rw [hloc, generateImpulses_single_bucket_contacts lengthStandIn skewWorld 2 1
      [deepContact] (by decide) (by simp [skewWorld, scenarioBodyB])
      (by simp [deepContact]), withoutContacts_generateImpulses]
    simp [getDeepestInterpenetration, deepestStep, resolveBucket, dischargeContact,
      processContact_apply, skewWorld, scenarioBodyA, scenarioBodyB, scenarioContact,
      deepContact, MCObject.deleteContacts, MCObject.deleteContactsWith, MCVector3dF.dot,
      MCVector3dF.toVector2d, MCVector2dF.toVector3d, MCFloat.fin_div_fin,
      MCVector3dF.ofRat_inj]
    norm_num
  refine ⟨by simp [skewWorld, scenarioBodyA], by simp [skewWorld, scenarioBodyB], h1, h2,
    ?_⟩
  intro heq
  have hloc := congrArg (fun v : World => (v 1).location) heq
  simp only [] at hloc
  rw [h1, h2, MCVector3dF.ofRat_inj] at hloc
  norm_num at hloc

/-! ## The angular impulse -/

theorem MCFloat.add_fin_zero (a : MCFloat) : a + MCFloat.fin 0 = a := by
  cases a <;> simp

/-- Exact arithmetic only (in single precision the two products of the cross product are
rounded separately, so that a parallel arm can leave a residue, and the sum with the old
angular velocity is rounded): for a `self` that is not stationary, with
`momentOfInertia(self) ≠ 0` and
`invInertia(self) + invInertia(other) ≠ 0`, `processContact` changes the angular velocity
of `self` by exactly `-k * (1 + restitution) * invInertia(self) / (invInertia(self) +
invInertia(other))`, where `k` is the z-component of
`cross(linearImpulse * mass(self), arm) / momentOfInertia(self)` and
`arm = contactPoint - self.location` is taken from the location before the call.  For
finite data `k = (ix * m * ay - iy * m * ax) / momentOfInertia`; in particular an arm that
is parallel to the linear impulse, or zero, adds no angular velocity. -/
theorem processContact_angular_velocity (lengthFast : MCVector3dF → MCFloat) (w : World)
    (pa pb : ObjId) (contact : MCContact) (displacement linearImpulse : MCVector3dF)
    (restitution : ℚ) (hmoving : (w pa).stationary = false)
    (hinertia : (w pa).momentOfInertia ≠ 0)
    (hsum : (w pa).invMomentOfInertia + (w pb).invMomentOfInertia ≠ 0) :
    (processContact lengthFast w pa pb contact displacement linearImpulse restitution
        pa).angularVelocity =
      (w pa).angularVelocity +
        -(MCVector3dF.cross (linearImpulse * MCFloat.fin (w pa).mass)
            (contact.contactPoint - (w pa).location)
            / MCFloat.fin (w pa).momentOfInertia).k *
          MCFloat.fin (1 + restitution) *
          MCFloat.fin ((w pa).invMomentOfInertia /
            ((w pa).invMomentOfInertia + (w pb).invMomentOfInertia)) ∧
    ∀ ix iy iz px py pz lx ly lz : ℚ, linearImpulse = MCVector3dF.ofRat ix iy iz →
      contact.contactPoint = MCVector3dF.ofRat px py pz →
      (w pa).location = MCVector3dF.ofRat lx ly lz →
      (processContact lengthFast w pa pb contact displacement linearImpulse restitution
          pa).angularVelocity =
        (w pa).angularVelocity + MCFloat.fin
          (-((ix * (w pa).mass * (py - ly) - iy * (w pa).mass * (px - lx))
              / (w pa).momentOfInertia) *
            (1 + restitution) *
            ((w pa).invMomentOfInertia /
              ((w pa).invMomentOfInertia + (w pb).invMomentOfInertia))) ∧
      (((∃ t : ℚ, px - lx = t * ix ∧ py - ly = t * iy ∧ pz - lz = t * iz) ∨
          ∃ t : ℚ, ix = t * (px - lx) ∧ iy = t * (py - ly) ∧ iz = t * (pz - lz)) →
        (processContact lengthFast w pa pb contact displacement linearImpulse restitution
            pa).angularVelocity = (w pa).angularVelocity) := by
  have hgeneral : (processContact lengthFast w pa pb contact displacement linearImpulse
        restitution pa).angularVelocity =
      (w pa).angularVelocity +
        -(MCVector3dF.cross (linearImpulse * MCFloat.fin (w pa).mass)
            (contact.contactPoint - (w pa).location)
            / MCFloat.fin (w pa).momentOfInertia).k *
          MCFloat.fin (1 + restitution) *
          MCFloat.fin ((w pa).invMomentOfInertia /
            ((w pa).invMomentOfInertia + (w pb).invMomentOfInertia)) := by
    rw [processContact_apply]
    simp [hmoving, MCFloat.fin_div_of_ne _ hsum]
  refine ⟨hgeneral, ?_⟩
  intro ix iy iz px py pz lx ly lz himpulse hpoint hlocation
  have hfinite : (processContact lengthFast w pa pb contact displacement linearImpulse
        restitution pa).angularVelocity =
      (w pa).angularVelocity + MCFloat.fin
        (-((ix * (w pa).mass * (py - ly) - iy * (w pa).mass * (px - lx))
            / (w pa).momentOfInertia) *
          (1 + restitution) *
          ((w pa).invMomentOfInertia /
            ((w pa).invMomentOfInertia + (w pb).invMomentOfInertia))) := by
    rw [hgeneral, himpulse, hpoint, hlocation]
    simp [MCVector3dF.cross, MCFloat.fin_div_of_ne _ hinertia]
  refine ⟨hfinite, ?_⟩
  intro hparallel
  have hzero : ix * (w pa).mass * (py - ly) - iy * (w pa).mass * (px - lx) = 0 := by
    rcases hparallel with ⟨t, hx, hy, _⟩ | ⟨t, hx, hy, _⟩
    · rw [hx, hy]
      ring
    · rw [hx, hy]
      ring
  rw [hfinite, hzero]
  simp [MCFloat.add_fin_zero]

/-- Exact arithmetic only, at body A of the scenario (mass 10, moment of inertia 5, at the
origin) with the linear impulse `(-2, 0, 0)` and restitution 0.5: the contact at `(1, 1, 0)`
turns the angular velocity from 0 to 3, the contact at `(1, 0, 0)`, whose arm is parallel to
the impulse, leaves it at 0. -/
theorem processContact_angular_velocity_witness :
    (scenarioWorld 1).angularVelocity = MCFloat.fin 0 ∧
    (processContact lengthStandIn scenarioWorld 1 2 offAxisContact
        (MCVector3dF.ofRat (1/5) 0 0) (MCVector3dF.ofRat (-2) 0 0) (1/2)
        1).angularVelocity = MCFloat.fin 3 ∧
    (processContact lengthStandIn scenarioWorld 1 2 scenarioContact
        (MCVector3dF.ofRat (1/5) 0 0) (MCVector3dF.ofRat (-2) 0 0) (1/2)
        1).angularVelocity = MCFloat.fin 0 := by
  have hmoving : (scenarioWorld 1).stationary = false := by
    simp [scenarioWorld, scenarioBodyA]
  have hinertia : (scenarioWorld 1).momentOfInertia ≠ 0 := by
    simp [scenarioWorld, scenarioBodyA]
  have hsum : (scenarioWorld 1).invMomentOfInertia + (scenarioWorld 2).invMomentOfInertia
      ≠ 0 := by
    simp [scenarioWorld, scenarioBodyA, scenarioBodyB]
  have hstart : (scenarioWorld 1).angularVelocity = MCFloat.fin 0 := by
    simp [scenarioWorld, scenarioBodyA]
  have hoff := ((processContact_angular_velocity lengthStandIn scenarioWorld 1 2
    offAxisContact (MCVector3dF.ofRat (1/5) 0 0) (MCVector3dF.ofRat (-2) 0 0) (1/2)
    hmoving hinertia hsum).2 (-2) 0 0 1 1 0 0 0 0 rfl rfl
    (by simp [scenarioWorld, scenarioBodyA])).1
  have hon := ((processContact_angular_velocity lengthStandIn scenarioWorld 1 2
    scenarioContact (MCVector3dF.ofRat (1/5) 0 0) (MCVector3dF.ofRat (-2) 0 0) (1/2)
    hmoving hinertia hsum).2 (-2) 0 0 1 0 0 0 0 0 rfl rfl
    (by simp [scenarioWorld, scenarioBodyA])).2
    (Or.inl ⟨-1/2, by norm_num, by norm_num, by norm_num⟩)
  refine ⟨hstart, ?_, ?_⟩
  · rw [hoff, hstart]
    simp [scenarioWorld, scenarioBodyA, scenarioBodyB]
    norm_num
  · rw [hon, hstart]

/-! ## Separation of the pair -/

/-- The two mass scalings of a pair sum to one. -/
theorem massScaling_add {a b : ℚ} (h : a + b ≠ 0) : massScaling a b + massScaling b a = 1 := by
  unfold massScaling
  rw [add_comm b a, ← add_div, div_self h]

/-- One component of the relative location after the two positional corrections. -/
theorem MCFloat.relative_correction (a b n : MCFloat) (d sA sB : ℚ) (h : sA + sB = 1) :
    (a + n * MCFloat.fin d * MCFloat.fin sA) - (b + -(n * MCFloat.fin d) * MCFloat.fin sB)
      = (a - b) + n * MCFloat.fin d := by
  rcases a with a | _ <;> rcases b with b | _ <;> rcases n with n | _ <;> simp
  linear_combination (n * d) * h

/-- The locations after `generateImpulsesFromDeepestContacts` on an object with a single
bucket are those after `dischargeContact` of the deepest contact of the bucket. -/
theorem generateImpulses_single_bucket_location (lengthFast : MCVector3dF → MCFloat)
    (w : World) (object key : ObjId) (contacts : List MCContact) (contact : MCContact)
    (hbuckets : (w object).contacts = [(key, contacts)])
    (hdeepest : getDeepestInterpenetration contacts = some contact) (x : ObjId) :
    (generateImpulsesFromDeepestContacts lengthFast w object x).location =
      (dischargeContact lengthFast w object contact x).location := by
  have h := congrArg MCObject.location
    (generateImpulses_deleteContacts lengthFast w object x)
  simp only [MCObject.deleteContacts] at h
  rw [h, hbuckets]
  simp [resolveBucket, hdeepest]

/-- Exact arithmetic only (in single precision the two rounded mass scalings need not sum
to one and the two sums with the locations are rounded): two different objects `A` and `B`
that are not stationary, with `invMass(A) + invMass(B) ≠ 0`; `A` discharges a contact of
normal `n` and depth `d` against `B`.  The relative location `location(A) - location(B)`
changes by exactly `n * d`, whatever the two masses are, because the two mass scalings sum to one; and so it does
after `generateImpulsesFromDeepestContacts` on `A` when the contact is the deepest of the
single bucket of `A`. -/
theorem separation_by_full_depth (lengthFast : MCVector3dF → MCFloat) (w : World)
    (A : ObjId) (contact : MCContact) (hne : A ≠ contact.object)
    (hmovingA : (w A).stationary = false)
    (hmovingB : (w contact.object).stationary = false)
    (hsum : (w A).invMass + (w contact.object).invMass ≠ 0) :
    massScaling (w A).invMass (w contact.object).invMass +
        massScaling (w contact.object).invMass (w A).invMass = 1 ∧
    (dischargeContact lengthFast w A contact A).location -
        (dischargeContact lengthFast w A contact contact.object).location
      = ((w A).location - (w contact.object).location) +
        contact.contactNormal * MCFloat.fin contact.interpenetrationDepth ∧
    ∀ contacts : List MCContact, (w A).contacts = [(contact.object, contacts)] →
      getDeepestInterpenetration contacts = some contact →
      (generateImpulsesFromDeepestContacts lengthFast w A A).location -
          (generateImpulsesFromDeepestContacts lengthFast w A contact.object).location
        = ((w A).location - (w contact.object).location) +
          contact.contactNormal * MCFloat.fin contact.interpenetrationDepth := by
  have hsum2 : (w contact.object).invMass + (w A).invMass ≠ 0 := by
    rw [add_comm]
    exact hsum
  have hone := massScaling_add hsum
  have key : (dischargeContact lengthFast w A contact A).location -
        (dischargeContact lengthFast w A contact contact.object).location
      = ((w A).location - (w contact.object).location) +
        contact.contactNormal * MCFloat.fin contact.interpenetrationDepth := by
    rw [dischargeContact_location_self _ _ _ _ hne hmovingA,
      dischargeContact_location_other _ _ _ _ hne hmovingB,
      MCFloat.fin_div_of_ne _ hsum, MCFloat.fin_div_of_ne _ hsum2]
    unfold massScaling at hone
    ext
    · simp only [MCVector3dF.sub_i, MCVector3dF.add_i, MCVector3dF.smul_i,
        MCVector3dF.neg_i]
      exact MCFloat.relative_correction _ _ _ _ _ _ hone
    · simp only [MCVector3dF.sub_j, MCVector3dF.add_j, MCVector3dF.smul_j,
        MCVector3dF.neg_j]
      exact MCFloat.relative_correction _ _ _ _ _ _ hone
    · simp only [MCVector3dF.sub_k, MCVector3dF.add_k, MCVector3dF.smul_k,
        MCVector3dF.neg_k]
      exact MCFloat.relative_correction _ _ _ _ _ _ hone
  refine ⟨hone, key, ?_⟩
  intro contacts hbuckets hdeepest
  rw [generateImpulses_single_bucket_location _ _ _ _ _ _ hbuckets hdeepest,
    generateImpulses_single_bucket_location _ _ _ _ _ _ hbuckets hdeepest]
  exact key

/-- Exact arithmetic only, at a heavy and a light body: object 1 (inverse mass 1/30)
discharges a contact of normal `(1, 0, 0)` and depth 1/5 against object 2 (inverse mass
1/10); the relative location goes from `(-9/5, 0, 0)` to `(-8/5, 0, 0)`, a change by
`(1/5, 0, 0)`. -/
theorem separation_by_full_depth_witness :
    (heavyLightWorld 1).location - (heavyLightWorld 2).location
      = MCVector3dF.ofRat (-9/5) 0 0 ∧
    (dischargeContact lengthStandIn heavyLightWorld 1 scenarioContact 1).location -
        (dischargeContact lengthStandIn heavyLightWorld 1 scenarioContact 2).location
      = MCVector3dF.ofRat (-8/5) 0 0 ∧
    (generateImpulsesFromDeepestContacts lengthStandIn heavyLightWorld 1 1).location -
        (generateImpulsesFromDeepestContacts lengthStandIn heavyLightWorld 1 2).location
      = MCVector3dF.ofRat (-8/5) 0 0 := by
  have h := separation_by_full_depth lengthStandIn heavyLightWorld 1 scenarioContact
    (by decide) (by simp [heavyLightWorld, heavyBody])
    (by simp [heavyLightWorld, scenarioBodyB, scenarioContact])
    (by simp [heavyLightWorld, heavyBody, scenarioBodyB, scenarioContact]; norm_num)
  have hbefore : (heavyLightWorld 1).location - (heavyLightWorld 2).location
      = MCVector3dF.ofRat (-9/5) 0 0 := by
    simp [heavyLightWorld, heavyBody, scenarioBodyB, MCVector3dF.ofRat_inj]
    norm_num
  have hdeepest : getDeepestInterpenetration [scenarioContact] = some scenarioContact := by
    simp [getDeepestInterpenetration, deepestStep, scenarioContact]
  have hafter : (heavyLightWorld 1).location - (heavyLightWorld scenarioContact.object).location
      + scenarioContact.contactNormal * MCFloat.fin scenarioContact.interpenetrationDepth
      = MCVector3dF.ofRat (-8/5) 0 0 := by
    simp [heavyLightWorld, heavyBody, scenarioBodyB, scenarioContact, MCVector3dF.ofRat_inj]
    norm_num
  refine ⟨hbefore, ?_, ?_⟩
  · rw [← hafter]
    exact h.2.1
  · rw [← hafter]
    exact h.2.2 [scenarioContact] (by simp [heavyLightWorld, heavyBody, scenarioContact])
      hdeepest

/-! ## A pair with mirrored deepest contacts -/

end MiniCore
